import Mathlib

/-!
# Verification of the theme-extractor color-to-theme core

Shallow embedding of `src/lib/color-utils.ts` and `src/lib/theme-generator.ts`
over exact rational arithmetic (the idealization of JS doubles).  JS `Math.round`
is `⌊x + 1/2⌋`; JS stable `Array.prototype.sort` with a comparator `cmp` is
modelled by `List.insertionSort` with the relation `r a b := cmp a b ≤ 0`
(insertion sort is a stable sort, so it computes the same list).

The sRGB gamma curve `Math.pow(x, 2.4)` is transcendental, so the whole
development is parametrized by a function `pow24 : ℚ → ℚ` standing for it;
theorems either hold for every `pow24` or carry as hypotheses elementary
bounds that the real `x ↦ x ^ 2.4` satisfies on `[0, 1]`.
-/

attribute [local semireducible] Rat.add Rat.mul Rat.inv Rat.sub

namespace ThemeExtractor

/-- JS `Math.round`: round half toward positive infinity. -/
def jsRound (q : ℚ) : ℤ := ⌊q + 1/2⌋

/-- Rounding to one decimal place, `Math.round(x * 10) / 10`. -/
def round01 (q : ℚ) : ℚ := (jsRound (q * 10) : ℚ) / 10

/-- JS `%` (remainder) for the nonnegative rational operands the program uses. -/
def jsModQ (a b : ℚ) : ℚ := a - b * ⌊a / b⌋

/-- An RGB triple.  Channels are JS numbers that are always integer-valued
in this program (`parseInt`, `Math.round`). -/
structure RGB where
  r : ℤ
  g : ℤ
  b : ℤ
deriving DecidableEq, Repr

/-- An HSL triple: hue in degrees, saturation and lightness in percent. -/
structure HSL where
  h : ℚ
  s : ℚ
  l : ℚ
deriving DecidableEq, Repr

/-- The largest channel fraction `max` computed inside `rgbToHsl`. -/
def rawMax (rgb : RGB) : ℚ :=
  max ((rgb.r : ℚ) / 255) (max ((rgb.g : ℚ) / 255) ((rgb.b : ℚ) / 255))

/-- The smallest channel fraction `min` computed inside `rgbToHsl`. -/
def rawMin (rgb : RGB) : ℚ :=
  min ((rgb.r : ℚ) / 255) (min ((rgb.g : ℚ) / 255) ((rgb.b : ℚ) / 255))

/-- The unrounded lightness `(max + min) / 2` of `rgbToHsl`. -/
def rawLight (rgb : RGB) : ℚ := (rawMax rgb + rawMin rgb) / 2

/-- The unrounded saturation of `rgbToHsl` (0 for grays, else the branch on
`l > 0.5`). -/
def rawSat (rgb : RGB) : ℚ :=
  if rawMax rgb = rawMin rgb then 0
  else if rawLight rgb > 1/2 then
    (rawMax rgb - rawMin rgb) / (2 - rawMax rgb - rawMin rgb)
  else (rawMax rgb - rawMin rgb) / (rawMax rgb + rawMin rgb)

/-- The unrounded hue fraction of `rgbToHsl` (the `switch` on the maximal
channel, `r` tested first, then `g`, then `b`). -/
def rawHue (rgb : RGB) : ℚ :=
  if rawMax rgb = rawMin rgb then 0
  else if rawMax rgb = (rgb.r : ℚ) / 255 then
    (((rgb.g : ℚ) / 255 - (rgb.b : ℚ) / 255) / (rawMax rgb - rawMin rgb)
      + (if (rgb.g : ℚ) / 255 < (rgb.b : ℚ) / 255 then (6 : ℚ) else 0)) / 6
  else if rawMax rgb = (rgb.g : ℚ) / 255 then
    (((rgb.b : ℚ) / 255 - (rgb.r : ℚ) / 255) / (rawMax rgb - rawMin rgb) + 2) / 6
  else (((rgb.r : ℚ) / 255 - (rgb.g : ℚ) / 255) / (rawMax rgb - rawMin rgb) + 4) / 6

/-- `rgbToHsl` from `color-utils`: min/max-channel conversion (the local
variables factored into the `raw*` helpers above), each component rounded to
one decimal (hue in degrees, saturation/lightness in percent). -/
def rgbToHsl (rgb : RGB) : HSL :=
  ⟨round01 (rawHue rgb * 360), round01 (rawSat rgb * 100), round01 (rawLight rgb * 100)⟩

/-- The `hue2rgb` helper inside `hslToRgb`. -/
def hue2rgb (p q t : ℚ) : ℚ :=
  let t1 := if t < 0 then t + 1 else t
  let t2 := if t1 > 1 then t1 - 1 else t1
  if t2 < 1/6 then p + (q - p) * 6 * t2
  else if t2 < 1/2 then q
  else if t2 < 2/3 then p + (q - p) * (2/3 - t2) * 6
  else p

/-- `hslToRgb` from `color-utils`. -/
def hslToRgb (hsl : HSL) : RGB :=
  let h := hsl.h / 360
  let s := hsl.s / 100
  let l := hsl.l / 100
  if s = 0 then
    ⟨jsRound (l * 255), jsRound (l * 255), jsRound (l * 255)⟩
  else
    let q := if l < 1/2 then l * (1 + s) else l + s - l * s
    let p := 2 * l - q
    ⟨jsRound (hue2rgb p q (h + 1/3) * 255),
     jsRound (hue2rgb p q h * 255),
     jsRound (hue2rgb p q (h - 1/3) * 255)⟩

/-- Decimal rendering of the nonnegative rationals the program prints
(all have denominator dividing 100, where JS prints the shortest decimal). -/
def formatRat (q : ℚ) : String :=
  if q.den = 1 then toString q.num
  else if 100 % q.den = 0 then
    let k : ℤ := q.num * (100 / (q.den : ℤ))
    let ip := k / 100
    let fr := (k % 100).natAbs
    if fr % 10 = 0 then toString ip ++ "." ++ toString (fr / 10)
    else if fr < 10 then toString ip ++ ".0" ++ toString fr
    else toString ip ++ "." ++ toString fr
  else toString q.num ++ "/" ++ toString q.den

/-- `formatHslForShadcn`: `"<h> <s>% <l>%"`. -/
def formatHslForShadcn (hsl : HSL) : String :=
  formatRat hsl.h ++ " " ++ formatRat hsl.s ++ "% " ++ formatRat hsl.l ++ "%"

/-- One channel of `getLuminance`: linearize via the `0.03928` threshold
piecewise function; `pow24` stands for `Math.pow(·, 2.4)`. -/
def linearizeChannel (pow24 : ℚ → ℚ) (c : ℤ) : ℚ :=
  let x : ℚ := (c : ℚ) / 255
  if x ≤ 3928/100000 then x / (1292/100) else pow24 ((x + 55/1000) / (1055/1000))

/-- `getLuminance` from `color-utils` (sRGB relative luminance). -/
def getLuminance (pow24 : ℚ → ℚ) (rgb : RGB) : ℚ :=
  2126/10000 * linearizeChannel pow24 rgb.r
    + 7152/10000 * linearizeChannel pow24 rgb.g
    + 722/10000 * linearizeChannel pow24 rgb.b

/-- `isLightColor`: luminance strictly above `0.5`. -/
def isLightColor (pow24 : ℚ → ℚ) (rgb : RGB) : Bool :=
  decide (getLuminance pow24 rgb > 1/2)

/-- Square of the Euclidean RGB distance.  The source takes `Math.sqrt` of
this quantity; the program only ever compares distances, and the square root
is strictly monotone on nonnegative reals, so working with the square
preserves every comparison the program makes. -/
def colorDistanceSq (c1 c2 : RGB) : ℚ :=
  (((c1.r - c2.r) ^ 2 + (c1.g - c2.g) ^ 2 + (c1.b - c2.b) ^ 2 : ℤ) : ℚ)

/-- A deduplicated color carrying its frequency count, `ColorWithFrequency`. -/
structure ColorWithFrequency where
  color : RGB
  hsl : HSL
  frequency : ℕ
  hex : String
deriving DecidableEq, Repr

/-- `sortColorsByLuminance`: stable sort, descending luminance. -/
def sortColorsByLuminance (pow24 : ℚ → ℚ) (colors : List ColorWithFrequency) :
    List ColorWithFrequency :=
  List.insertionSort
    (fun a b => getLuminance pow24 b.color ≤ getLuminance pow24 a.color) colors

/-- `findForegroundColor`: keep the colors whose lightness class differs from
the background's, sort them by descending distance to the background, take
the first; `none` when no candidate survives. -/
def findForegroundColor (pow24 : ℚ → ℚ) (background : RGB)
    (colors : List ColorWithFrequency) : Option ColorWithFrequency :=
  let bgIsLight := isLightColor pow24 background
  let candidates := colors.filter fun c => isLightColor pow24 c.color != bgIsLight
  if candidates.isEmpty then none
  else (List.insertionSort
    (fun a b => colorDistanceSq b.color background ≤ colorDistanceSq a.color background)
    candidates).head?

/-- The 30°-bucket key of a hue: `Math.round(h / 30) * 30 % 360`. -/
def hueBucketKey (h : ℚ) : ℤ := jsRound (h / 30) * 30 % 360

/-- Insertion into the hue map: `Map` set/push keeps key insertion order and
appends the color to the bucket's array. -/
def addToGroups (groups : List (ℤ × List ColorWithFrequency)) (k : ℤ)
    (c : ColorWithFrequency) : List (ℤ × List ColorWithFrequency) :=
  match groups with
  | [] => [(k, [c])]
  | (k', cs) :: rest =>
    if k' = k then (k', cs ++ [c]) :: rest else (k', cs) :: addToGroups rest k c

/-- `groupColorsByHue`: skip desaturated (`s < 15`) and extreme-lightness
(`l < 15` or `l > 90`) colors, bucket the rest by 30° of hue. -/
def groupColorsByHue (colors : List ColorWithFrequency) :
    List (ℤ × List ColorWithFrequency) :=
  colors.foldl (fun groups c =>
    if c.hsl.s < 15 then groups
    else if c.hsl.l < 15 ∨ c.hsl.l > 90 then groups
    else addToGroups groups (hueBucketKey c.hsl.h) c) []

/-- `isLikelyUIColor`: saturated red/orange hue range. -/
def isLikelyUIColor (hsl : HSL) : Bool :=
  decide ((((0:ℚ) ≤ hsl.h ∧ hsl.h ≤ 30) ∨ ((330:ℚ) ≤ hsl.h ∧ hsl.h ≤ 360)) ∧ hsl.s > 70)

/-- Total frequency of a hue bucket. -/
def bucketTotalFrequency (gc : List ColorWithFrequency) : ℚ :=
  gc.foldl (fun sum c => sum + (c.frequency : ℚ)) 0

/-- Average saturation of a hue bucket. -/
def bucketAvgSaturation (gc : List ColorWithFrequency) : ℚ :=
  gc.foldl (fun sum c => sum + c.hsl.s) 0 / (gc.length : ℚ)

/-- Average lightness of a hue bucket. -/
def bucketAvgLightness (gc : List ColorWithFrequency) : ℚ :=
  gc.foldl (fun sum c => sum + c.hsl.l) 0 / (gc.length : ℚ)

/-- The score `(totalFrequency × 0.7 + avgSaturation × 0.3) × uiPenalty` of a
bucket with key `k`, where the penalty tests `isLikelyUIColor` on the average
HSL whose hue component is the bucket key `k` itself. -/
def groupScore (k : ℤ) (gc : List ColorWithFrequency) : ℚ :=
  let totalFrequency := bucketTotalFrequency gc
  let avgSaturation := bucketAvgSaturation gc
  let avgHsl : HSL := ⟨(k : ℚ), avgSaturation, bucketAvgLightness gc⟩
  let uiPenalty : ℚ := if isLikelyUIColor avgHsl then 3/10 else 1
  (totalFrequency * (7/10) + avgSaturation * (3/10)) * uiPenalty

/-- One step of the fold computing `bestGroup`: a strictly greater score
replaces the current best. -/
def bestGroupStep (best : Option (ℤ × List ColorWithFrequency × ℚ))
    (g : ℤ × List ColorWithFrequency) : Option (ℤ × List ColorWithFrequency × ℚ) :=
  match best with
  | none => some (g.1, g.2, groupScore g.1 g.2)
  | some b =>
    if groupScore g.1 g.2 > b.2.2 then some (g.1, g.2, groupScore g.1 g.2) else some b

/-- The fold computing `bestGroup`. -/
def bestGroupFold (groups : List (ℤ × List ColorWithFrequency)) :
    Option (ℤ × List ColorWithFrequency × ℚ) :=
  groups.foldl bestGroupStep none

/-- Within-bucket score `frequency × 2 + saturation`. -/
def colorPickScore (c : ColorWithFrequency) : ℚ := (c.frequency : ℚ) * 2 + c.hsl.s

/-- `findPrimaryColor`: hue-bucket scoring with red/orange penalty; fallback
filter by saturation/lightness and maximal frequency when no bucket exists. -/
def findPrimaryColor (colors : List ColorWithFrequency) : Option ColorWithFrequency :=
  let hueGroups := groupColorsByHue colors
  if hueGroups.isEmpty then
    let candidates := colors.filter fun c =>
      decide (c.hsl.s > 20 ∧ c.hsl.l > 15 ∧ c.hsl.l < 85)
    if candidates.isEmpty then none
    else (List.insertionSort (fun a b => b.frequency ≤ a.frequency) candidates).head?
  else
    match bestGroupFold hueGroups with
    | none => none
    | some (_, gc, _) =>
      (List.insertionSort (fun a b => colorPickScore b ≤ colorPickScore a) gc).head?

/-- `findAccentColor`: candidates with `s ≥ 25`, `l ∈ [20, 80]` and circular
hue distance from the primary hue above 60°; most frequent wins. -/
def findAccentColor (colors : List ColorWithFrequency) (primaryHue : ℚ) :
    Option ColorWithFrequency :=
  let candidates := colors.filter fun c =>
    if c.hsl.s < 25 then false
    else if c.hsl.l < 20 ∨ c.hsl.l > 80 then false
    else
      let hueDiff := |c.hsl.h - primaryHue|
      let hueDistance := min hueDiff (360 - hueDiff)
      decide (hueDistance > 60)
  if candidates.isEmpty then none
  else (List.insertionSort (fun a b => b.frequency ≤ a.frequency) candidates).head?

/-- `muteColor`. -/
def muteColor (hsl : HSL) (lightMode : Bool) : HSL :=
  if lightMode then ⟨hsl.h, min (hsl.s * (3/10)) 15, max hsl.l 95⟩
  else ⟨hsl.h, min (hsl.s * (3/10)) 15, min hsl.l 15⟩

/-- `generateBorderColor`. -/
def generateBorderColor (backgroundHsl : HSL) (lightMode : Bool) : HSL :=
  if lightMode then ⟨backgroundHsl.h, min (backgroundHsl.s + 10) 40, max (backgroundHsl.l - 10) 85⟩
  else ⟨backgroundHsl.h, min (backgroundHsl.s + 10) 40, min (backgroundHsl.l + 15) 25⟩

/-- JS `\s` (and `String.prototype.trim`) whitespace, at the ASCII level. -/
def isJsWhitespace (c : Char) : Bool :=
  decide ((9 ≤ c.toNat ∧ c.toNat ≤ 13) ∨ c.toNat = 32)

/-- `String.prototype.trim`: strip whitespace from both ends. -/
def jsTrim (s : String) : String :=
  String.mk (((s.data.dropWhile isJsWhitespace).reverse.dropWhile isJsWhitespace).reverse)

/-- ASCII lowercasing of one character (`String.prototype.toLowerCase`
restricted to the ASCII range the program's inputs use). -/
def jsToLowerChar (c : Char) : Char :=
  if 65 ≤ c.toNat ∧ c.toNat ≤ 90 then Char.ofNat (c.toNat + 32) else c

/-- `String.prototype.toLowerCase` at the ASCII level. -/
def jsToLower (s : String) : String := String.mk (s.data.map jsToLowerChar)

/-- `startsWith('#')`. -/
def startsWithHash (s : String) : Bool :=
  match s.data with
  | '#' :: _ => true
  | _ => false

/-- Hex digit test, `[a-f\d]` with the `i` flag. -/
def isHexDig (c : Char) : Bool :=
  c.isDigit || (('a' ≤ c && c ≤ 'f') || ('A' ≤ c && c ≤ 'F'))

/-- Value of one hex digit. -/
def hexDigVal (c : Char) : ℕ :=
  if c.isDigit then c.toNat - 48
  else if 'a' ≤ c && c ≤ 'f' then c.toNat - 87
  else c.toNat - 55

/-- `parseInt(·, 16)` on a two-digit pair. -/
def hexPair (c1 c2 : Char) : ℤ := (16 * hexDigVal c1 + hexDigVal c2 : ℕ)

/-- `hexToRgb`: an optional `#`, then exactly six (or, failing that,
exactly three) hex digits; anything else gives `none`. -/
def hexToRgb (hex : String) : Option RGB :=
  let cs := match hex.data with
    | '#' :: rest => rest
    | cs => cs
  match cs with
  | [c1, c2, c3, c4, c5, c6] =>
    if [c1, c2, c3, c4, c5, c6].all isHexDig then
      some ⟨hexPair c1 c2, hexPair c3 c4, hexPair c5 c6⟩
    else none
  | [c1, c2, c3] =>
    if [c1, c2, c3].all isHexDig then
      some ⟨hexPair c1 c1, hexPair c2 c2, hexPair c3 c3⟩
    else none
  | _ => none

/-- Greedy `\d+`: leading digits and the rest. -/
def takeDigits : List Char → List Char × List Char
  | [] => ([], [])
  | c :: rest =>
    if c.isDigit then
      let (ds, r) := takeDigits rest
      (c :: ds, r)
    else ([], c :: rest)

/-- Decimal value of a digit string (`parseInt`). -/
def digitsToNat (ds : List Char) : ℕ :=
  ds.foldl (fun n c => 10 * n + (c.toNat - 48)) 0

/-- `\d+(?:\.\d+)?` with `parseFloat` semantics: the fractional part is
taken only when a digit follows the dot. -/
def takeNumber (cs : List Char) : Option (ℚ × List Char) :=
  let (d1, r1) := takeDigits cs
  if d1.isEmpty then none
  else
    match r1 with
    | '.' :: r2 =>
      let (d2, r3) := takeDigits r2
      if d2.isEmpty then some ((digitsToNat d1 : ℚ), '.' :: r2)
      else some ((digitsToNat d1 : ℚ) + (digitsToNat d2 : ℚ) / ((10 : ℚ) ^ d2.length), r3)
    | _ => some ((digitsToNat d1 : ℚ), r1)

/-- The tail of the rgb regex after the opening parenthesis:
`(\d+),\s*(\d+),\s*(\d+)`. -/
def matchRgbAfterParen (cs : List Char) : Option (ℕ × ℕ × ℕ) :=
  let (d1, r1) := takeDigits cs
  if d1.isEmpty then none
  else
    match r1 with
    | ',' :: r2 =>
      let r3 := r2.dropWhile isJsWhitespace
      let (d2, r4) := takeDigits r3
      if d2.isEmpty then none
      else
        match r4 with
        | ',' :: r5 =>
          let r6 := r5.dropWhile isJsWhitespace
          let (d3, _) := takeDigits r6
          if d3.isEmpty then none
          else some (digitsToNat d1, digitsToNat d2, digitsToNat d3)
        | _ => none
    | _ => none

/-- Try the rgb regex `rgba?\((\d+),\s*(\d+),\s*(\d+)` at one position. -/
def matchRgbAt : List Char → Option (ℕ × ℕ × ℕ)
  | 'r' :: 'g' :: 'b' :: rest =>
    match rest with
    | 'a' :: '(' :: cs => matchRgbAfterParen cs
    | '(' :: cs => matchRgbAfterParen cs
    | _ => none
  | _ => none

/-- Leftmost match of the rgb regex (JS `String.prototype.match` searches). -/
def searchRgb : List Char → Option (ℕ × ℕ × ℕ)
  | [] => none
  | c :: rest =>
    match matchRgbAt (c :: rest) with
    | some x => some x
    | none => searchRgb rest

/-- The tail of the hsl regex after the opening parenthesis:
`(\d+(?:\.\d+)?),\s*(\d+(?:\.\d+)?)%?,\s*(\d+(?:\.\d+)?)%?`. -/
def matchHslAfterParen (cs : List Char) : Option (ℚ × ℚ × ℚ) :=
  match takeNumber cs with
  | none => none
  | some (n1, r1) =>
    match r1 with
    | ',' :: r2 =>
      let r3 := r2.dropWhile isJsWhitespace
      match takeNumber r3 with
      | none => none
      | some (n2, r4) =>
        let r5 := match r4 with
          | '%' :: rest => rest
          | rest => rest
        match r5 with
        | ',' :: r6 =>
          let r7 := r6.dropWhile isJsWhitespace
          match takeNumber r7 with
          | none => none
          | some (n3, _) => some (n1, n2, n3)
        | _ => none
    | _ => none

/-- Try the hsl regex `hsla?\(...` at one position. -/
def matchHslAt : List Char → Option (ℚ × ℚ × ℚ)
  | 'h' :: 's' :: 'l' :: rest =>
    match rest with
    | 'a' :: '(' :: cs => matchHslAfterParen cs
    | '(' :: cs => matchHslAfterParen cs
    | _ => none
  | _ => none

/-- Leftmost match of the hsl regex. -/
def searchHsl : List Char → Option (ℚ × ℚ × ℚ)
  | [] => none
  | c :: rest =>
    match matchHslAt (c :: rest) with
    | some x => some x
    | none => searchHsl rest

/-- The fixed named-color table, in source order. -/
def namedColors : List (String × String) :=
  [("white", "#ffffff"), ("black", "#000000"), ("red", "#ff0000"),
   ("green", "#00ff00"), ("blue", "#0000ff"), ("yellow", "#ffff00"),
   ("cyan", "#00ffff"), ("magenta", "#ff00ff"), ("gray", "#808080"),
   ("grey", "#808080"), ("orange", "#ffa500"), ("purple", "#800080"),
   ("pink", "#ffc0cb"), ("transparent", "#00000000")]

/-- `parseColor`: trim and lowercase, then try hex, the rgb()/rgba() regex,
the hsl()/hsla() regex, and the named-color table; `none` otherwise. -/
def parseColor (color : String) : Option RGB :=
  let c := jsToLower (jsTrim color)
  if startsWithHash c then hexToRgb c
  else
    match searchRgb c.data with
    | some (r, g, b) => some ⟨(r : ℤ), (g : ℤ), (b : ℤ)⟩
    | none =>
      match searchHsl c.data with
      | some (h, s, l) => some (hslToRgb ⟨h, s, l⟩)
      | none =>
        match namedColors.lookup c with
        | some hx => hexToRgb hx
        | none => none

/-- JS `n.toString(16)` for the integer channel values. -/
def jsToString16 (i : ℤ) : String :=
  if i < 0 then "-" ++ String.mk (Nat.toDigits 16 i.natAbs)
  else String.mk (Nat.toDigits 16 i.toNat)

/-- `padStart(2, '0')`. -/
def padStart2 (s : String) : String := if s.length < 2 then "0" ++ s else s

/-- The canonical hex string `#rrggbb` built in `generateTheme`. -/
def rgbHexString (rgb : RGB) : String :=
  "#" ++ padStart2 (jsToString16 rgb.r) ++ padStart2 (jsToString16 rgb.g)
    ++ padStart2 (jsToString16 rgb.b)

/-- One step of the dedup `Map`: bump the frequency of an existing hex in
place, else append a fresh `ColorWithFrequency` (insertion order kept). -/
def insertColor (acc : List ColorWithFrequency) (rgb : RGB) : List ColorWithFrequency :=
  let hex := rgbHexString rgb
  if acc.any fun c => c.hex = hex then
    acc.map fun c => if c.hex = hex then { c with frequency := c.frequency + 1 } else c
  else acc ++ [{ color := rgb, hsl := rgbToHsl rgb, frequency := 1, hex := hex }]

/-- One string of the parse-and-deduplicate loop: skip unparseable input,
else fold the parsed color into the map. -/
def rcStep (acc : List ColorWithFrequency) (s : String) : List ColorWithFrequency :=
  match parseColor s with
  | none => acc
  | some rgb => insertColor acc rgb

/-- The parse-and-deduplicate loop at the top of `generateTheme`. -/
def reduceColors (colorStrings : List String) : List ColorWithFrequency :=
  colorStrings.foldl rcStep []

/-- The display summary at the bottom of `generateTheme`: drop structural
grays, sort by descending frequency, keep at most 12. -/
def displayColors (colors : List ColorWithFrequency) : List ColorWithFrequency :=
  (List.insertionSort (fun a b => b.frequency ≤ a.frequency)
    (colors.filter fun c => decide (c.hsl.s > 10 ∨ (c.hsl.l > 5 ∧ c.hsl.l < 95)))).take 12

/-- The 19-role record `ThemeColors`, each role a serialized HSL string. -/
structure ThemeColors where
  background : String
  foreground : String
  card : String
  cardForeground : String
  popover : String
  popoverForeground : String
  primary : String
  primaryForeground : String
  secondary : String
  secondaryForeground : String
  muted : String
  mutedForeground : String
  accent : String
  accentForeground : String
  destructive : String
  destructiveForeground : String
  border : String
  input : String
  ring : String
deriving DecidableEq, Repr

/-- One entry of the `colorDetails` summary. -/
structure ColorDetail where
  hex : String
  frequency : ℕ
  hue : ℤ
deriving DecidableEq, Repr

/-- The final output record `ExtractedTheme`. -/
structure ExtractedTheme where
  light : ThemeColors
  dark : ThemeColors
  sourceColors : List String
  colorDetails : List ColorDetail
deriving DecidableEq, Repr

/-- `generateTheme` from `theme-generator.ts`. -/
def generateTheme (pow24 : ℚ → ℚ) (colorStrings : List String) : ExtractedTheme :=
  let colors := reduceColors colorStrings
  let sortedByLuminance := sortColorsByLuminance pow24 colors
  let n := sortedByLuminance.length
  let lightestColors := sortedByLuminance.take ((n + 2) / 3)
  let darkestColors := sortedByLuminance.drop (n - (n + 2) / 3)
  let primaryCandidate := findPrimaryColor colors
  let defaultLight : RGB := ⟨255, 255, 255⟩
  let defaultDark : RGB := ⟨9, 9, 11⟩
  let defaultPrimary : RGB := ⟨24, 24, 27⟩
  let lightBackground := ((lightestColors.head?).map (·.color)).getD defaultLight
  let darkBackground := ((darkestColors.getLast?).map (·.color)).getD defaultDark
  let lightForeground :=
    ((findForegroundColor pow24 lightBackground colors).map (·.color)).getD defaultDark
  let darkForeground :=
    ((findForegroundColor pow24 darkBackground colors).map (·.color)).getD defaultLight
  let primary := (primaryCandidate.map (·.color)).getD defaultPrimary
  let primaryHsl := rgbToHsl primary
  let secondaryHsl : HSL := ⟨primaryHsl.h, max (primaryHsl.s * (3/10)) 10, 96⟩
  let secondaryDarkHsl : HSL := ⟨primaryHsl.h, max (primaryHsl.s * (3/10)) 10, 17⟩
  let accentCandidate := findAccentColor colors primaryHsl.h
  let accentHsl : HSL :=
    match accentCandidate with
    | some c => c.hsl
    | none => ⟨jsModQ (primaryHsl.h + 180) 360, min primaryHsl.s 60, primaryHsl.l⟩
  let mutedLightHsl := muteColor (rgbToHsl lightBackground) true
  let mutedDarkHsl := muteColor (rgbToHsl darkBackground) false
  let borderLightHsl := generateBorderColor (rgbToHsl lightBackground) true
  let borderDarkHsl := generateBorderColor (rgbToHsl darkBackground) false
  let mutedForegroundLightHsl : HSL := ⟨primaryHsl.h, 16, 47⟩
  let mutedForegroundDarkHsl : HSL := ⟨primaryHsl.h, 20, 65⟩
  let primaryForegroundHsl : HSL :=
    if isLightColor pow24 primary then ⟨primaryHsl.h, min primaryHsl.s 50, 10⟩
    else ⟨primaryHsl.h, min primaryHsl.s 50, 98⟩
  let light : ThemeColors :=
    { background := formatHslForShadcn (rgbToHsl lightBackground)
      foreground := formatHslForShadcn (rgbToHsl lightForeground)
      card := formatHslForShadcn (rgbToHsl lightBackground)
      cardForeground := formatHslForShadcn (rgbToHsl lightForeground)
      popover := formatHslForShadcn (rgbToHsl lightBackground)
      popoverForeground := formatHslForShadcn (rgbToHsl lightForeground)
      primary := formatHslForShadcn primaryHsl
      primaryForeground := formatHslForShadcn primaryForegroundHsl
      secondary := formatHslForShadcn secondaryHsl
      secondaryForeground := formatHslForShadcn primaryHsl
      muted := formatHslForShadcn mutedLightHsl
      mutedForeground := formatHslForShadcn mutedForegroundLightHsl
      accent := formatHslForShadcn accentHsl
      accentForeground := formatHslForShadcn primaryHsl
      destructive := "0 84.2% 60.2%"
      destructiveForeground := "0 0% 98%"
      border := formatHslForShadcn borderLightHsl
      input := formatHslForShadcn borderLightHsl
      ring := formatHslForShadcn primaryHsl }
  let darkPrimaryHsl : HSL := ⟨primaryHsl.h, primaryHsl.s, min (primaryHsl.l + 20) 90⟩
  let dark : ThemeColors :=
    { background := formatHslForShadcn (rgbToHsl darkBackground)
      foreground := formatHslForShadcn (rgbToHsl darkForeground)
      card := formatHslForShadcn (rgbToHsl darkBackground)
      cardForeground := formatHslForShadcn (rgbToHsl darkForeground)
      popover := formatHslForShadcn (rgbToHsl darkBackground)
      popoverForeground := formatHslForShadcn (rgbToHsl darkForeground)
      primary := formatHslForShadcn darkPrimaryHsl
      primaryForeground := formatHslForShadcn ⟨primaryHsl.h, 50, 10⟩
      secondary := formatHslForShadcn secondaryDarkHsl
      secondaryForeground := formatHslForShadcn darkPrimaryHsl
      muted := formatHslForShadcn mutedDarkHsl
      mutedForeground := formatHslForShadcn mutedForegroundDarkHsl
      accent := formatHslForShadcn ⟨accentHsl.h, accentHsl.s, min (accentHsl.l + 10) 80⟩
      accentForeground := formatHslForShadcn darkPrimaryHsl
      destructive := "0 62.8% 30.6%"
      destructiveForeground := "0 0% 98%"
      border := formatHslForShadcn borderDarkHsl
      input := formatHslForShadcn borderDarkHsl
      ring := formatHslForShadcn ⟨primaryHsl.h, 27, 84⟩ }
  let sortedColors := displayColors colors
  { light := light
    dark := dark
    sourceColors := sortedColors.map (·.hex)
    colorDetails := sortedColors.map fun c =>
      { hex := c.hex, frequency := c.frequency, hue := jsRound c.hsl.h } }

/-- A bucket of the median-cut quantizer. -/
structure ColorBucket where
  colors : List RGB
  count : ℕ
deriving DecidableEq, Repr

/-- The bucket's colors sorted along the channel of greatest range (the
comparator choice and sort of the median-cut split step). -/
def splitSorted (bucket : ColorBucket) : List RGB :=
  let rMin := bucket.colors.foldl (fun m c => min m c.r) 255
  let rMax := bucket.colors.foldl (fun m c => max m c.r) 0
  let gMin := bucket.colors.foldl (fun m c => min m c.g) 255
  let gMax := bucket.colors.foldl (fun m c => max m c.g) 0
  let bMin := bucket.colors.foldl (fun m c => min m c.b) 255
  let bMax := bucket.colors.foldl (fun m c => max m c.b) 0
  let rRange := rMax - rMin
  let gRange := gMax - gMin
  let bRange := bMax - bMin
  if rRange ≥ gRange ∧ rRange ≥ bRange then
    List.insertionSort (fun a b => a.r ≤ b.r) bucket.colors
  else if gRange ≥ rRange ∧ gRange ≥ bRange then
    List.insertionSort (fun a b => a.g ≤ b.g) bucket.colors
  else
    List.insertionSort (fun a b => a.b ≤ b.b) bucket.colors

/-- The split of the currently largest bucket of the median-cut loop: sort
along the widest channel, cut at the midpoint index. -/
def splitBucket (bucket : ColorBucket) : ColorBucket × ColorBucket :=
  let sorted := splitSorted bucket
  let mid := sorted.length / 2
  let bucket1 := sorted.take mid
  let bucket2 := sorted.drop mid
  (⟨bucket1, bucket1.length⟩, ⟨bucket2, bucket2.length⟩)

/-- The `while (buckets.length < maxColors)` loop of `medianCutQuantize`:
sort buckets by descending count, take the largest; stop if it has fewer
than two colors, else split it in two (replacing it and appending).

The `fuel` argument only bounds the number of iterations so the recursion is
structural; every iteration grows `buckets` by exactly one, so with the
`fuel = maxColors` used below the loop always exits through its own
`buckets.length < maxColors` test (or the break) before fuel runs out. -/
def mcLoop (maxColors : ℕ) : ℕ → List ColorBucket → List ColorBucket
  | 0, buckets => buckets
  | fuel + 1, buckets =>
    if buckets.length < maxColors then
      match List.insertionSort (fun a b => b.count ≤ a.count) buckets with
      | [] => []
      | bucket :: rest =>
        if bucket.colors.length < 2 then bucket :: rest
        else
          let pair := splitBucket bucket
          mcLoop maxColors fuel (pair.1 :: (rest ++ [pair.2]))
    else buckets

/-- `medianCutQuantize` from `color-utils`. -/
def medianCutQuantize (pixels : List RGB) (maxColors : ℕ) : List RGB :=
  if pixels.isEmpty then []
  else
    let buckets := mcLoop maxColors maxColors [⟨pixels, pixels.length⟩]
    buckets.map fun bucket =>
      let avg := bucket.colors.foldl
        (fun acc c => RGB.mk (acc.r + c.r) (acc.g + c.g) (acc.b + c.b)) ⟨0, 0, 0⟩
      let count := bucket.colors.length
      ⟨jsRound ((avg.r : ℚ) / (count : ℚ)),
       jsRound ((avg.g : ℚ) / (count : ℚ)),
       jsRound ((avg.b : ℚ) / (count : ℚ))⟩

/-! ## General lemmas about the stable sorts used by the selectors -/

/-- The head of a list sorted by a descending-key relation is a member
attaining the maximal key. -/
theorem head_insertionSort_max {α : Type} {β : Type} [LinearOrder β]
    (r : α → α → Prop) [DecidableRel r] (key : α → β)
    (hr : ∀ a b, r a b ↔ key b ≤ key a) (l : List α) (c : α)
    (h : (List.insertionSort r l).head? = some c) :
    c ∈ l ∧ ∀ x ∈ l, key x ≤ key c := by
  haveI : IsTotal α r := ⟨fun a b => by
    rw [hr a b, hr b a]
    exact (le_total (key b) (key a))⟩
  haveI : IsTrans α r := ⟨fun a b d hab hbd => by
    rw [hr] at hab hbd ⊢
    exact le_trans hbd hab⟩
  have hsorted := List.sorted_insertionSort r l
  cases hms : List.insertionSort r l with
  | nil => rw [hms] at h; exact absurd h (by simp)
  | cons y ys =>
    rw [hms] at h
    have hyc : y = c := by simpa using h
    subst hyc
    rw [hms] at hsorted
    have hmem : ∀ x ∈ l, x ∈ y :: ys := by
      intro x hx
      rw [← hms, List.mem_insertionSort]
      exact hx
    constructor
    · have : y ∈ y :: ys := List.mem_cons_self y ys
      rw [← hms, List.mem_insertionSort] at this
      exact this
    · intro x hx
      rcases List.mem_cons.mp (hmem x hx) with h1 | h2
      · exact le_of_eq (congrArg key h1)
      · exact (hr y x).mp ((List.pairwise_cons.mp hsorted).1 x h2)

/-! ## C3, C9: structural role invariants of the assembled records -/

/-- C3: in every generated theme, `card` and `popover` equal `background`,
and `cardForeground` and `popoverForeground` equal `foreground`, in both the
light and the dark record. -/
theorem generateTheme_surface_invariants (pow24 : ℚ → ℚ) (colorStrings : List String) :
    (generateTheme pow24 colorStrings).light.card
        = (generateTheme pow24 colorStrings).light.background
      ∧ (generateTheme pow24 colorStrings).light.popover
        = (generateTheme pow24 colorStrings).light.background
      ∧ (generateTheme pow24 colorStrings).light.cardForeground
        = (generateTheme pow24 colorStrings).light.foreground
      ∧ (generateTheme pow24 colorStrings).light.popoverForeground
        = (generateTheme pow24 colorStrings).light.foreground
      ∧ (generateTheme pow24 colorStrings).dark.card
        = (generateTheme pow24 colorStrings).dark.background
      ∧ (generateTheme pow24 colorStrings).dark.popover
        = (generateTheme pow24 colorStrings).dark.background
      ∧ (generateTheme pow24 colorStrings).dark.cardForeground
        = (generateTheme pow24 colorStrings).dark.foreground
      ∧ (generateTheme pow24 colorStrings).dark.popoverForeground
        = (generateTheme pow24 colorStrings).dark.foreground :=
  ⟨rfl, rfl, rfl, rfl, rfl, rfl, rfl, rfl⟩

/-- C9: `secondaryForeground`, `accentForeground` and (light) `ring` always
repeat the mode's `primary` string. -/
theorem generateTheme_foreground_roles_repeat_primary
    (pow24 : ℚ → ℚ) (colorStrings : List String) :
    (generateTheme pow24 colorStrings).light.secondaryForeground
        = (generateTheme pow24 colorStrings).light.primary
      ∧ (generateTheme pow24 colorStrings).light.accentForeground
        = (generateTheme pow24 colorStrings).light.primary
      ∧ (generateTheme pow24 colorStrings).light.ring
        = (generateTheme pow24 colorStrings).light.primary
      ∧ (generateTheme pow24 colorStrings).dark.secondaryForeground
        = (generateTheme pow24 colorStrings).dark.primary
      ∧ (generateTheme pow24 colorStrings).dark.accentForeground
        = (generateTheme pow24 colorStrings).dark.primary :=
  ⟨rfl, rfl, rfl, rfl, rfl⟩

/-! ## C10: the display summary -/

/-- A concrete computable stand-in for the gamma curve, used to instantiate
universally quantified theorems at a specific `pow24`: like `x ↦ x ^ 2.4` it
maps `[0, 1]` into itself, is monotone there, and lies below the identity. -/
def pow24Sample (x : ℚ) : ℚ := x * x

theorem pow24Sample_le_id : ∀ x : ℚ, 0 ≤ x → x ≤ 1 → pow24Sample x ≤ x := by
  intro x hx hx1
  unfold pow24Sample
  nlinarith

theorem generateTheme_sourceColors_def (pow24 : ℚ → ℚ) (cs : List String) :
    (generateTheme pow24 cs).sourceColors
      = (displayColors (reduceColors cs)).map (·.hex) := rfl

theorem generateTheme_colorDetails_def (pow24 : ℚ → ℚ) (cs : List String) :
    (generateTheme pow24 cs).colorDetails
      = (displayColors (reduceColors cs)).map
          (fun c => ⟨c.hex, c.frequency, jsRound c.hsl.h⟩) := rfl

theorem displayColors_subset (colors : List ColorWithFrequency) :
    ∀ c ∈ displayColors colors, c ∈ colors := by
  intro c hc
  unfold displayColors at hc
  have h1 := List.mem_of_mem_take hc
  rw [List.mem_insertionSort] at h1
  exact List.mem_of_mem_filter h1

/-- C10: `sourceColors` and `colorDetails` have the same length, at most 12,
and position `i` of both summaries is drawn from one deduplicated
`ColorWithFrequency`: the hex is that color's hex, the frequency its
accumulated frequency, and the hue its HSL hue rounded to an integer. -/
theorem generateTheme_summary_consistent (pow24 : ℚ → ℚ) (cs : List String) :
    (generateTheme pow24 cs).sourceColors.length
        = (generateTheme pow24 cs).colorDetails.length
      ∧ (generateTheme pow24 cs).sourceColors.length ≤ 12
      ∧ ∀ i, i < (generateTheme pow24 cs).colorDetails.length →
          ∃ c ∈ reduceColors cs,
            (generateTheme pow24 cs).sourceColors[i]? = some c.hex
              ∧ (generateTheme pow24 cs).colorDetails[i]?
                = some ⟨c.hex, c.frequency, jsRound c.hsl.h⟩ := by
  refine ⟨?_, ?_, ?_⟩
  · rw [generateTheme_sourceColors_def, generateTheme_colorDetails_def]
    simp
  · rw [generateTheme_sourceColors_def]
    unfold displayColors
    simp
  · intro i hi
    rw [generateTheme_colorDetails_def] at hi
    simp only [List.length_map] at hi
    refine ⟨(displayColors (reduceColors cs))[i], ?_, ?_, ?_⟩
    · exact displayColors_subset _ _ (List.getElem_mem hi)
    · rw [generateTheme_sourceColors_def]
      simp [List.getElem?_eq_getElem hi]
    · rw [generateTheme_colorDetails_def]
      simp [List.getElem?_eq_getElem hi]

theorem generateTheme_summary_consistent_witness :
    ∃ c ∈ reduceColors ["#ff0000"],
      (generateTheme pow24Sample ["#ff0000"]).sourceColors[0]? = some c.hex
        ∧ (generateTheme pow24Sample ["#ff0000"]).colorDetails[0]?
          = some ⟨c.hex, c.frequency, jsRound c.hsl.h⟩ :=
  (generateTheme_summary_consistent pow24Sample ["#ff0000"]).2.2 0 (by decide)

/-! ## C1: the empty input -/

/-- Under the bound `pow24 x ≤ x` on `[0, 1]` (true of `x ↦ x ^ 2.4`), the
fixed fallback primary RGB(24, 24, 27) is classified dark. -/
theorem isLightColor_defaultPrimary (pow24 : ℚ → ℚ)
    (hpow : ∀ x : ℚ, 0 ≤ x → x ≤ 1 → pow24 x ≤ x) :
    isLightColor pow24 ⟨24, 24, 27⟩ = false := by
  have h1 : pow24 (507/3587) ≤ 507/3587 := hpow _ (by norm_num) (by norm_num)
  have h2 : pow24 (547/3587) ≤ 547/3587 := hpow _ (by norm_num) (by norm_num)
  unfold isLightColor getLuminance linearizeChannel
  rw [decide_eq_false_iff_not, not_lt]
  have e1 : (((24:ℤ) : ℚ)/255 + 55/1000) / (1055/1000) = 507/3587 := by norm_num
  have e2 : (((27:ℤ) : ℚ)/255 + 55/1000) / (1055/1000) = 507/3587 + 40/3587 := by norm_num
  simp only [RGB.r, RGB.g, RGB.b]
  rw [if_neg (by norm_num), if_neg (by norm_num), e1, e2]
  have h2' : pow24 (507/3587 + 40/3587) ≤ 547/3587 := by
    have harg : (507/3587 + 40/3587 : ℚ) = 547/3587 := by norm_num
    rw [harg]
    exact h2
  linarith

/-- The record `generateTheme` assembles for the empty input, as a function
of the one input-dependent bit: whether `pow24` classifies the fallback
primary RGB(24, 24, 27) as light.  `generateTheme pow24 []` is definitionally
equal to this record applied to that bit. -/
def emptyFallbackTheme (primaryIsLight : Bool) : ExtractedTheme :=
  let primaryHsl := rgbToHsl ⟨24, 24, 27⟩
  let secondaryHsl : HSL := ⟨primaryHsl.h, max (primaryHsl.s * (3/10)) 10, 96⟩
  let secondaryDarkHsl : HSL := ⟨primaryHsl.h, max (primaryHsl.s * (3/10)) 10, 17⟩
  let accentHsl : HSL := ⟨jsModQ (primaryHsl.h + 180) 360, min primaryHsl.s 60, primaryHsl.l⟩
  let mutedLightHsl := muteColor (rgbToHsl ⟨255, 255, 255⟩) true
  let mutedDarkHsl := muteColor (rgbToHsl ⟨9, 9, 11⟩) false
  let borderLightHsl := generateBorderColor (rgbToHsl ⟨255, 255, 255⟩) true
  let borderDarkHsl := generateBorderColor (rgbToHsl ⟨9, 9, 11⟩) false
  let primaryForegroundHsl : HSL :=
    if primaryIsLight then ⟨primaryHsl.h, min primaryHsl.s 50, 10⟩
    else ⟨primaryHsl.h, min primaryHsl.s 50, 98⟩
  let darkPrimaryHsl : HSL := ⟨primaryHsl.h, primaryHsl.s, min (primaryHsl.l + 20) 90⟩
  { light :=
      { background := formatHslForShadcn (rgbToHsl ⟨255, 255, 255⟩)
        foreground := formatHslForShadcn (rgbToHsl ⟨9, 9, 11⟩)
        card := formatHslForShadcn (rgbToHsl ⟨255, 255, 255⟩)
        cardForeground := formatHslForShadcn (rgbToHsl ⟨9, 9, 11⟩)
        popover := formatHslForShadcn (rgbToHsl ⟨255, 255, 255⟩)
        popoverForeground := formatHslForShadcn (rgbToHsl ⟨9, 9, 11⟩)
        primary := formatHslForShadcn primaryHsl
        primaryForeground := formatHslForShadcn primaryForegroundHsl
        secondary := formatHslForShadcn secondaryHsl
        secondaryForeground := formatHslForShadcn primaryHsl
        muted := formatHslForShadcn mutedLightHsl
        mutedForeground := formatHslForShadcn ⟨primaryHsl.h, 16, 47⟩
        accent := formatHslForShadcn accentHsl
        accentForeground := formatHslForShadcn primaryHsl
        destructive := "0 84.2% 60.2%"
        destructiveForeground := "0 0% 98%"
        border := formatHslForShadcn borderLightHsl
        input := formatHslForShadcn borderLightHsl
        ring := formatHslForShadcn primaryHsl }
    dark :=
      { background := formatHslForShadcn (rgbToHsl ⟨9, 9, 11⟩)
        foreground := formatHslForShadcn (rgbToHsl ⟨255, 255, 255⟩)
        card := formatHslForShadcn (rgbToHsl ⟨9, 9, 11⟩)
        cardForeground := formatHslForShadcn (rgbToHsl ⟨255, 255, 255⟩)
        popover := formatHslForShadcn (rgbToHsl ⟨9, 9, 11⟩)
        popoverForeground := formatHslForShadcn (rgbToHsl ⟨255, 255, 255⟩)
        primary := formatHslForShadcn darkPrimaryHsl
        primaryForeground := formatHslForShadcn ⟨primaryHsl.h, 50, 10⟩
        secondary := formatHslForShadcn secondaryDarkHsl
        secondaryForeground := formatHslForShadcn darkPrimaryHsl
        muted := formatHslForShadcn mutedDarkHsl
        mutedForeground := formatHslForShadcn ⟨primaryHsl.h, 20, 65⟩
        accent := formatHslForShadcn ⟨accentHsl.h, accentHsl.s, min (accentHsl.l + 10) 80⟩
        accentForeground := formatHslForShadcn darkPrimaryHsl
        destructive := "0 62.8% 30.6%"
        destructiveForeground := "0 0% 98%"
        border := formatHslForShadcn borderDarkHsl
        input := formatHslForShadcn borderDarkHsl
        ring := formatHslForShadcn ⟨primaryHsl.h, 27, 84⟩ }
    sourceColors := []
    colorDetails := [] }

theorem generateTheme_nil_eq (pow24 : ℚ → ℚ) :
    generateTheme pow24 [] = emptyFallbackTheme (isLightColor pow24 ⟨24, 24, 27⟩) := by
  have h0 : reduceColors ([] : List String) = [] := rfl
  have h1 : sortColorsByLuminance pow24 [] = [] := rfl
  have h2 : ∀ bg : RGB, findForegroundColor pow24 bg [] = none := fun _ => rfl
  have h3 : findPrimaryColor [] = none := rfl
  have h4 : ∀ hq : ℚ, findAccentColor [] hq = none := fun _ => rfl
  have h5 : displayColors [] = [] := rfl
  unfold generateTheme emptyFallbackTheme
  simp only [h0, h1, h2, h3, h4, h5, List.length_nil, List.take_nil, List.drop_nil,
    List.head?_nil, List.getLast?_nil, Option.map_none', Option.getD_none, Option.map_some',
    Option.getD_some, List.map_nil]

/-- C1: `generateTheme []` never fails: it returns the fully-populated theme
in which every role is derived from the fixed fallbacks; in particular
`light.background` is `"0 0% 100%"` and `dark.background` serializes the
dark default RGB(9, 9, 11). -/
theorem generateTheme_empty (pow24 : ℚ → ℚ)
    (hpow : ∀ x : ℚ, 0 ≤ x → x ≤ 1 → pow24 x ≤ x) :
    (generateTheme pow24 []).light.background = "0 0% 100%"
      ∧ (generateTheme pow24 []).dark.background = formatHslForShadcn (rgbToHsl ⟨9, 9, 11⟩)
      ∧ (generateTheme pow24 []).dark.background = "240 10% 3.9%"
      ∧ (generateTheme pow24 []).light.foreground = "240 10% 3.9%"
      ∧ (generateTheme pow24 []).light.card = "0 0% 100%"
      ∧ (generateTheme pow24 []).light.cardForeground = "240 10% 3.9%"
      ∧ (generateTheme pow24 []).light.popover = "0 0% 100%"
      ∧ (generateTheme pow24 []).light.popoverForeground = "240 10% 3.9%"
      ∧ (generateTheme pow24 []).light.primary = "240 5.9% 10%"
      ∧ (generateTheme pow24 []).light.primaryForeground = "240 5.9% 98%"
      ∧ (generateTheme pow24 []).light.secondary = "240 10% 96%"
      ∧ (generateTheme pow24 []).light.secondaryForeground = "240 5.9% 10%"
      ∧ (generateTheme pow24 []).light.muted = "0 0% 100%"
      ∧ (generateTheme pow24 []).light.mutedForeground = "240 16% 47%"
      ∧ (generateTheme pow24 []).light.accent = "60 5.9% 10%"
      ∧ (generateTheme pow24 []).light.accentForeground = "240 5.9% 10%"
      ∧ (generateTheme pow24 []).light.destructive = "0 84.2% 60.2%"
      ∧ (generateTheme pow24 []).light.destructiveForeground = "0 0% 98%"
      ∧ (generateTheme pow24 []).light.border = "0 10% 90%"
      ∧ (generateTheme pow24 []).light.input = "0 10% 90%"
      ∧ (generateTheme pow24 []).light.ring = "240 5.9% 10%"
      ∧ (generateTheme pow24 []).dark.foreground = "0 0% 100%"
      ∧ (generateTheme pow24 []).dark.card = "240 10% 3.9%"
      ∧ (generateTheme pow24 []).dark.cardForeground = "0 0% 100%"
      ∧ (generateTheme pow24 []).dark.popover = "240 10% 3.9%"
      ∧ (generateTheme pow24 []).dark.popoverForeground = "0 0% 100%"
      ∧ (generateTheme pow24 []).dark.primary = "240 5.9% 30%"
      ∧ (generateTheme pow24 []).dark.primaryForeground = "240 50% 10%"
      ∧ (generateTheme pow24 []).dark.secondary = "240 10% 17%"
      ∧ (generateTheme pow24 []).dark.secondaryForeground = "240 5.9% 30%"
      ∧ (generateTheme pow24 []).dark.muted = "240 3% 3.9%"
      ∧ (generateTheme pow24 []).dark.mutedForeground = "240 20% 65%"
      ∧ (generateTheme pow24 []).dark.accent = "60 5.9% 20%"
      ∧ (generateTheme pow24 []).dark.accentForeground = "240 5.9% 30%"
      ∧ (generateTheme pow24 []).dark.destructive = "0 62.8% 30.6%"
      ∧ (generateTheme pow24 []).dark.destructiveForeground = "0 0% 98%"
      ∧ (generateTheme pow24 []).dark.border = "240 20% 18.9%"
      ∧ (generateTheme pow24 []).dark.input = "240 20% 18.9%"
      ∧ (generateTheme pow24 []).dark.ring = "240 27% 84%"
      ∧ (generateTheme pow24 []).sourceColors = []
      ∧ (generateTheme pow24 []).colorDetails = [] := by
  have hlight := isLightColor_defaultPrimary pow24 hpow
  rw [generateTheme_nil_eq pow24, hlight]
  decide

theorem generateTheme_empty_witness :
    (generateTheme pow24Sample []).light.background = "0 0% 100%" :=
  (generateTheme_empty pow24Sample pow24Sample_le_id).1

/-! ## C6: `parseColor` on the named-color table and on unrecognized input -/

/-- C6 counterexample: the table maps `transparent` to the eight-digit string
`#00000000`, which `hexToRgb` (six- or three-digit forms only) rejects, so
`parseColor "transparent"` is `none` — against the claim that every entry of
the table parses to an RGB value. -/
theorem parseColor_transparent_none : parseColor "transparent" = none := by decide

/-- C6 (amended): every entry of the named-color table except `transparent`
parses to an RGB value, `transparent` yields `none`, and a string recognized
by no supported format (no hex prefix, no rgb()/rgba() match, no hsl()/hsla()
match, no table entry) yields `none`. -/
theorem parseColor_table_and_unrecognized :
    (∀ p ∈ namedColors, p.1 ≠ "transparent" → (parseColor p.1).isSome = true)
      ∧ parseColor "transparent" = none
      ∧ ∀ s : String,
          startsWithHash (jsToLower (jsTrim s)) = false →
          searchRgb (jsToLower (jsTrim s)).data = none →
          searchHsl (jsToLower (jsTrim s)).data = none →
          namedColors.lookup (jsToLower (jsTrim s)) = none →
          parseColor s = none := by
  refine ⟨by decide, by decide, ?_⟩
  intro s h1 h2 h3 h4
  unfold parseColor
  simp only [h1, h2, h3, h4, Bool.false_eq_true, if_false]

theorem parseColor_table_and_unrecognized_witness :
    parseColor "notacolor" = none :=
  parseColor_table_and_unrecognized.2.2 "notacolor" (by decide) (by decide) (by decide)
    (by decide)

/-! ## C2: order sensitivity of `generateTheme` and what survives of it -/

/-- C2 counterexample: two parseable colors of equal frequency keep their
first-insertion order in `sourceColors`, so permuting the input changes the
output — the theme records are not byte-identical under permutation. -/
theorem generateTheme_permutation_counterexample :
    (["#ff0000", "#0000ff"] : List String).Perm ["#0000ff", "#ff0000"]
      ∧ (generateTheme pow24Sample ["#ff0000", "#0000ff"]).sourceColors
        ≠ (generateTheme pow24Sample ["#0000ff", "#ff0000"]).sourceColors :=
  ⟨List.Perm.swap "#0000ff" "#ff0000" [], by decide⟩

/-- Accumulated frequency the reducer assigns to one hex string. -/
def hexFrequency (colors : List ColorWithFrequency) (hex : String) : ℕ :=
  ((colors.filter fun c => c.hex = hex).map (·.frequency)).sum

/-- Whether one raw input string parses to the given canonical hex. -/
def parsesToHex (s hex : String) : Bool :=
  match parseColor s with
  | some rgb => decide (rgbHexString rgb = hex)
  | none => false

theorem sum_map_freq_succ (l : List ColorWithFrequency) :
    (l.map fun c => c.frequency + 1).sum = (l.map fun c => c.frequency).sum + l.length := by
  induction l with
  | nil => simp
  | cons c cs ih => simp [ih]; omega

/-- The frequency-bump branch of `insertColor`. -/
theorem insertColor_eq_bump (acc : List ColorWithFrequency) (rgb : RGB)
    (h : (acc.any fun c => decide (c.hex = rgbHexString rgb)) = true) :
    insertColor acc rgb = acc.map fun c =>
      if c.hex = rgbHexString rgb then { c with frequency := c.frequency + 1 } else c := by
  unfold insertColor
  simp only [h, if_true]

/-- The fresh-entry branch of `insertColor`. -/
theorem insertColor_eq_append (acc : List ColorWithFrequency) (rgb : RGB)
    (h : ¬ (acc.any fun c => decide (c.hex = rgbHexString rgb)) = true) :
    insertColor acc rgb = acc ++ [⟨rgb, rgbToHsl rgb, 1, rgbHexString rgb⟩] := by
  unfold insertColor
  simp only [h, Bool.false_eq_true, if_false]

theorem insertColor_hex_nodup (acc : List ColorWithFrequency) (rgb : RGB)
    (h : (acc.map fun c => c.hex).Nodup) :
    ((insertColor acc rgb).map fun c => c.hex).Nodup := by
  by_cases hany : (acc.any fun c => decide (c.hex = rgbHexString rgb)) = true
  · rw [insertColor_eq_bump acc rgb hany, List.map_map]
    have : ((fun c => c.hex) ∘ fun c : ColorWithFrequency =>
        if c.hex = rgbHexString rgb then { c with frequency := c.frequency + 1 } else c)
        = fun c : ColorWithFrequency => c.hex := by
      funext c
      by_cases hc : c.hex = rgbHexString rgb <;> simp [hc]
    rw [this]
    exact h
  · rw [insertColor_eq_append acc rgb hany, List.map_append]
    simp only [List.map_cons, List.map_nil]
    rw [List.nodup_append]
    refine ⟨h, List.nodup_singleton _, ?_⟩
    intro x hx
    simp only [List.mem_singleton]
    intro hxe
    subst hxe
    rw [List.mem_map] at hx
    obtain ⟨c, hc, hce⟩ := hx
    exact hany (List.any_eq_true.mpr ⟨c, hc, by simp [hce]⟩)

theorem hexFrequency_insertColor (acc : List ColorWithFrequency) (rgb : RGB)
    (hnd : (acc.map fun c => c.hex).Nodup) (hex : String) :
    hexFrequency (insertColor acc rgb) hex =
      hexFrequency acc hex + (if rgbHexString rgb = hex then 1 else 0) := by
  by_cases hany : (acc.any fun c => decide (c.hex = rgbHexString rgb)) = true
  · rw [insertColor_eq_bump acc rgb hany]
    unfold hexFrequency
    rw [List.filter_map]
    have hfc : (acc.filter ((fun c => decide (c.hex = hex)) ∘ fun c =>
        if c.hex = rgbHexString rgb then { c with frequency := c.frequency + 1 } else c))
        = acc.filter fun c => decide (c.hex = hex) := by
      refine List.filter_congr fun c _ => ?_
      by_cases hc : c.hex = rgbHexString rgb <;> simp [hc]
    rw [hfc, List.map_map]
    by_cases hh : rgbHexString rgb = hex
    · subst hh
      have hfun : ∀ c ∈ acc.filter (fun c => decide (c.hex = rgbHexString rgb)),
          ((fun c => c.frequency) ∘ fun c =>
            if c.hex = rgbHexString rgb then { c with frequency := c.frequency + 1 } else c) c
          = c.frequency + 1 := by
        intro c hc
        have hcm := List.of_mem_filter hc
        simp only [decide_eq_true_eq] at hcm
        simp [hcm]
      rw [List.map_congr_left hfun, sum_map_freq_succ]
      have hlen : (acc.filter fun c => decide (c.hex = rgbHexString rgb)).length = 1 := by
        have hge : 0 < (acc.filter fun c => decide (c.hex = rgbHexString rgb)).length := by
          rw [List.any_eq_true] at hany
          obtain ⟨c, hc, hce⟩ := hany
          have : c ∈ acc.filter fun c => decide (c.hex = rgbHexString rgb) :=
            List.mem_filter.mpr ⟨hc, hce⟩
          exact List.length_pos.mpr (List.ne_nil_of_mem this)
        have hle : (acc.filter fun c => decide (c.hex = rgbHexString rgb)).length ≤ 1 := by
          have h1 : (acc.filter fun c => decide (c.hex = rgbHexString rgb)).length
              = (acc.map fun c => c.hex).countP fun x => decide (x = rgbHexString rgb) := by
            rw [List.countP_map, ← List.countP_eq_length_filter]
            rfl
          rw [h1]
          have h2 := List.nodup_iff_count_le_one.mp hnd (rgbHexString rgb)
          calc ((acc.map fun c => c.hex).countP fun x => decide (x = rgbHexString rgb))
              = (acc.map fun c => c.hex).count (rgbHexString rgb) := by
                rw [List.count]
                refine List.countP_congr fun x _ => ?_
                simp [BEq.beq]
          _ ≤ 1 := h2
        omega
      rw [hlen, if_pos rfl]
    · have hfun : ∀ c ∈ acc.filter (fun c => decide (c.hex = hex)),
          ((fun c => c.frequency) ∘ fun c =>
            if c.hex = rgbHexString rgb then { c with frequency := c.frequency + 1 } else c) c
          = c.frequency := by
        intro c hc
        have hcm := List.of_mem_filter hc
        simp only [decide_eq_true_eq] at hcm
        have : ¬ c.hex = rgbHexString rgb := by
          rw [hcm]
          exact fun hcontra => hh hcontra.symm
        simp [this]
      rw [List.map_congr_left hfun, if_neg hh]
      simp
  · rw [insertColor_eq_append acc rgb hany]
    unfold hexFrequency
    rw [List.filter_append]
    by_cases hh : rgbHexString rgb = hex
    · simp [hh]
    · simp [hh]

theorem reduceColors_foldl_spec (cs : List String) :
    ∀ acc : List ColorWithFrequency, (acc.map fun c => c.hex).Nodup →
      ((cs.foldl rcStep acc).map fun c => c.hex).Nodup
        ∧ ∀ hex, hexFrequency (cs.foldl rcStep acc) hex
            = hexFrequency acc hex + cs.countP fun s => parsesToHex s hex := by
  induction cs with
  | nil => intro acc hnd; exact ⟨hnd, fun hex => by simp⟩
  | cons s rest ih =>
    intro acc hnd
    rw [List.foldl_cons]
    cases hp : parseColor s with
    | none =>
      have hstep : rcStep acc s = acc := by unfold rcStep; rw [hp]
      rw [hstep]
      obtain ⟨h1, h2⟩ := ih acc hnd
      refine ⟨h1, fun hex => ?_⟩
      rw [h2 hex, List.countP_cons]
      have : parsesToHex s hex = false := by unfold parsesToHex; rw [hp]
      simp [this]
    | some rgb =>
      have hstep : rcStep acc s = insertColor acc rgb := by unfold rcStep; rw [hp]
      rw [hstep]
      obtain ⟨h1, h2⟩ := ih (insertColor acc rgb) (insertColor_hex_nodup acc rgb hnd)
      refine ⟨h1, fun hex => ?_⟩
      rw [h2 hex, hexFrequency_insertColor acc rgb hnd hex, List.countP_cons]
      have : parsesToHex s hex = decide (rgbHexString rgb = hex) := by
        unfold parsesToHex; rw [hp]
      rw [this]
      by_cases hh : rgbHexString rgb = hex
      · simp [hh]
        omega
      · simp [hh]

/-- C2 (amended): `generateTheme` is a pure function of the input sequence —
the same sequence always yields the same theme — and the deduplicated
frequency map is permutation-invariant: each hex is assigned exactly the
number of input strings that parse to it, a count unchanged by permuting the
input.  Byte-identity of the whole output under permutation fails (see the
counterexample): on frequency ties `sourceColors` follows first-insertion
order. -/
theorem generateTheme_deterministic_and_freq_invariant (pow24 : ℚ → ℚ)
    (cs cs' : List String) (hperm : cs.Perm cs') :
    generateTheme pow24 cs = generateTheme pow24 cs
      ∧ (∀ hex, hexFrequency (reduceColors cs) hex
          = cs.countP fun s => parsesToHex s hex)
      ∧ ∀ hex, hexFrequency (reduceColors cs) hex
          = hexFrequency (reduceColors cs') hex := by
  have hcount : ∀ (l : List String) hex,
      hexFrequency (reduceColors l) hex = l.countP fun s => parsesToHex s hex := by
    intro l hex
    have := (reduceColors_foldl_spec l [] (by simp)).2 hex
    unfold reduceColors
    rw [this]
    have : hexFrequency [] hex = 0 := rfl
    omega
  refine ⟨rfl, hcount cs, fun hex => ?_⟩
  rw [hcount cs hex, hcount cs' hex]
  exact hperm.countP_eq _

theorem generateTheme_deterministic_and_freq_invariant_witness :
    hexFrequency (reduceColors ["red", "#f00"]) "#ff0000"
      = hexFrequency (reduceColors ["#f00", "red"]) "#ff0000" :=
  (generateTheme_deterministic_and_freq_invariant pow24Sample ["red", "#f00"]
    ["#f00", "red"] (List.Perm.swap "#f00" "red" [])).2.2 "#ff0000"

/-! ## C5: the foreground selector -/

/-- C5: whenever `findForegroundColor` returns a candidate, that candidate is
one of the input colors, its lightness class differs from the background's,
and among all input colors of differing lightness class it attains the
maximal Euclidean RGB distance from the background (stated via the squared
distance, which orders identically). -/
theorem findForegroundColor_spec (pow24 : ℚ → ℚ) (background : RGB)
    (colors : List ColorWithFrequency) (c : ColorWithFrequency)
    (h : findForegroundColor pow24 background colors = some c) :
    c ∈ colors
      ∧ isLightColor pow24 c.color ≠ isLightColor pow24 background
      ∧ ∀ c' ∈ colors, isLightColor pow24 c'.color ≠ isLightColor pow24 background →
          colorDistanceSq c'.color background ≤ colorDistanceSq c.color background := by
  unfold findForegroundColor at h
  simp only [] at h
  split at h
  · exact absurd h (by simp)
  · obtain ⟨hmem, hmax⟩ :=
      head_insertionSort_max
        (fun a b : ColorWithFrequency =>
          colorDistanceSq b.color background ≤ colorDistanceSq a.color background)
        (fun x => colorDistanceSq x.color background) (fun a b => Iff.rfl)
        (colors.filter fun c =>
          isLightColor pow24 c.color != isLightColor pow24 background) c h
    obtain ⟨hcol, hpred⟩ := List.mem_filter.mp hmem
    refine ⟨hcol, bne_iff_ne.mp hpred, ?_⟩
    intro c' hc' hne
    exact hmax c' (List.mem_filter.mpr ⟨hc', bne_iff_ne.mpr hne⟩)

theorem findForegroundColor_spec_witness :
    (⟨⟨0, 0, 0⟩, rgbToHsl ⟨0, 0, 0⟩, 1, "#000000"⟩ : ColorWithFrequency)
        ∈ reduceColors ["#000000"]
      ∧ isLightColor pow24Sample
          (⟨⟨0, 0, 0⟩, rgbToHsl ⟨0, 0, 0⟩, 1, "#000000"⟩ : ColorWithFrequency).color
        ≠ isLightColor pow24Sample ⟨255, 255, 255⟩ :=
  ⟨(findForegroundColor_spec pow24Sample ⟨255, 255, 255⟩ (reduceColors ["#000000"])
      ⟨⟨0, 0, 0⟩, rgbToHsl ⟨0, 0, 0⟩, 1, "#000000"⟩ (by decide)).1,
   (findForegroundColor_spec pow24Sample ⟨255, 255, 255⟩ (reduceColors ["#000000"])
      ⟨⟨0, 0, 0⟩, rgbToHsl ⟨0, 0, 0⟩, 1, "#000000"⟩ (by decide)).2.1⟩

/-! ## C7: the median-cut quantizer's cardinality bound -/

/-- Total number of pixels held by a list of buckets. -/
def bucketSizes (bs : List ColorBucket) : ℕ := (bs.map fun b => b.colors.length).sum

theorem splitSorted_length (b : ColorBucket) :
    (splitSorted b).length = b.colors.length := by
  unfold splitSorted
  simp only []
  split
  · exact List.length_insertionSort _ _
  · split
    · exact List.length_insertionSort _ _
    · exact List.length_insertionSort _ _

theorem splitBucket_lengths (b : ColorBucket) :
    (splitBucket b).1.colors.length = b.colors.length / 2
      ∧ (splitBucket b).2.colors.length = b.colors.length - b.colors.length / 2
      ∧ (splitBucket b).1.count = (splitBucket b).1.colors.length
      ∧ (splitBucket b).2.count = (splitBucket b).2.colors.length := by
  have hd := Nat.div_le_self b.colors.length 2
  unfold splitBucket
  refine ⟨?_, ?_, rfl, rfl⟩
  · simp only [List.length_take, splitSorted_length]
    omega
  · simp only [List.length_drop, splitSorted_length]

theorem mcLoop_length_le (maxColors : ℕ) :
    ∀ (fuel : ℕ) (buckets : List ColorBucket),
      (mcLoop maxColors fuel buckets).length ≤ max buckets.length maxColors := by
  intro fuel
  induction fuel with
  | zero => intro buckets; simp [mcLoop]
  | succ fuel ih =>
    intro buckets
    rw [mcLoop]
    split
    · rename_i hlen
      split
      · simp
      · rename_i bucket rest hs
        have hrest : rest.length + 1 = buckets.length := by
          have hl := List.length_insertionSort (fun a b => b.count ≤ a.count) buckets
          rw [hs] at hl
          simp only [List.length_cons] at hl
          omega
        split
        · simp only [List.length_cons]
          omega
        · simp only []
          refine le_trans (ih _) ?_
          simp only [List.length_cons, List.length_append, List.length_nil]
          omega
    · exact le_max_left _ _

theorem sum_sizes_of_all_one (bs : List ColorBucket)
    (h : ∀ b ∈ bs, b.colors.length = 1) : bucketSizes bs = bs.length := by
  unfold bucketSizes
  induction bs with
  | nil => simp
  | cons b rest ih =>
    simp only [List.map_cons, List.sum_cons, List.length_cons]
    rw [h b (List.mem_cons_self b rest), ih fun x hx => h x (List.mem_cons.mpr (Or.inr hx))]
    omega

theorem mcLoop_invariant (maxColors : ℕ) :
    ∀ (fuel : ℕ) (buckets : List ColorBucket),
      (∀ b ∈ buckets, b.colors ≠ []) →
      (∀ b ∈ buckets, b.count = b.colors.length) →
      bucketSizes (mcLoop maxColors fuel buckets) = bucketSizes buckets
        ∧ (∀ b ∈ mcLoop maxColors fuel buckets, b.colors ≠ [])
        ∧ (maxColors ≤ fuel + buckets.length →
            (mcLoop maxColors fuel buckets).length < maxColors →
            ∀ b ∈ mcLoop maxColors fuel buckets, b.colors.length = 1) := by
  intro fuel
  induction fuel with
  | zero =>
    intro buckets hne hcnt
    refine ⟨rfl, hne, fun hfuel hlt => ?_⟩
    simp only [mcLoop] at hlt
    omega
  | succ fuel ih =>
    intro buckets hne hcnt
    rw [mcLoop]
    split
    · rename_i hlen
      split
      · rename_i hs
        have hlen0 : buckets.length = 0 := by
          have hl := List.length_insertionSort (fun a b => b.count ≤ a.count) buckets
          rw [hs] at hl
          simpa using hl.symm
        have hbe : buckets = [] := List.length_eq_zero.mp hlen0
        subst hbe
        exact ⟨rfl, by simp, fun _ _ => by simp⟩
      · rename_i bucket rest hs
        have hperm : (List.insertionSort (fun a b => b.count ≤ a.count) buckets).Perm buckets :=
          List.perm_insertionSort _ _
        have hsne : ∀ b ∈ List.insertionSort (fun a b => b.count ≤ a.count) buckets,
            b.colors ≠ [] := fun b hb => hne b (hperm.mem_iff.mp hb)
        have hscnt : ∀ b ∈ List.insertionSort (fun a b => b.count ≤ a.count) buckets,
            b.count = b.colors.length := fun b hb => hcnt b (hperm.mem_iff.mp hb)
        have hssum : bucketSizes (List.insertionSort (fun a b => b.count ≤ a.count) buckets)
            = bucketSizes buckets :=
          (hperm.map fun b : ColorBucket => b.colors.length).sum_eq
        rw [hs] at hsne hscnt hssum
        have hrest : rest.length + 1 = buckets.length := by
          have hl := List.length_insertionSort (fun a b => b.count ≤ a.count) buckets
          rw [hs] at hl
          simp only [List.length_cons] at hl
          omega
        split
        · rename_i hsmall
          refine ⟨hssum, hsne, fun hfuel hlt => ?_⟩
          haveI : IsTotal ColorBucket (fun a b => b.count ≤ a.count) :=
            ⟨fun a b => le_total b.count a.count⟩
          haveI : IsTrans ColorBucket (fun a b => b.count ≤ a.count) :=
            ⟨fun _ _ _ hab hbd => le_trans hbd hab⟩
          have hsorted := List.sorted_insertionSort (fun a b => b.count ≤ a.count) buckets
          rw [hs] at hsorted
          intro b hb
          have hble : b.count ≤ bucket.count := by
            rcases List.mem_cons.mp hb with h1 | h2
            · rw [h1]
            · exact (List.pairwise_cons.mp hsorted).1 b h2
          have hbe := hscnt b hb
          have hbne := hsne b hb
          have hbpos : 0 < b.colors.length := List.length_pos.mpr hbne
          have hbcnt := hscnt bucket (List.mem_cons_self _ _)
          omega
        · rename_i hbig
          simp only []
          have hsplit := splitBucket_lengths bucket
          have hblen : bucket.colors.length ≥ 2 := by omega
          have hne1 : (splitBucket bucket).1.colors ≠ [] := by
            rw [← List.length_pos, hsplit.1]
            omega
          have hne2 : (splitBucket bucket).2.colors ≠ [] := by
            rw [← List.length_pos, hsplit.2.1]
            omega
          have hih := ih ((splitBucket bucket).1 :: (rest ++ [(splitBucket bucket).2]))
            (by
              intro b hb
              rcases List.mem_cons.mp hb with h1 | h2
              · rw [h1]; exact hne1
              · rcases List.mem_append.mp h2 with h3 | h4
                · exact hsne b (List.mem_cons.mpr (Or.inr h3))
                · rw [List.mem_singleton.mp h4]; exact hne2)
            (by
              intro b hb
              rcases List.mem_cons.mp hb with h1 | h2
              · rw [h1]; exact hsplit.2.2.1
              · rcases List.mem_append.mp h2 with h3 | h4
                · exact hscnt b (List.mem_cons.mpr (Or.inr h3))
                · rw [List.mem_singleton.mp h4]; exact hsplit.2.2.2)
          have hsum2 : bucketSizes ((splitBucket bucket).1 :: (rest ++ [(splitBucket bucket).2]))
              = bucketSizes buckets := by
            rw [← hssum]
            simp only [bucketSizes, List.map_cons, List.sum_cons, List.map_append,
              List.sum_append, List.map_nil, List.sum_nil]
            rw [hsplit.1, hsplit.2.1]
            omega
          refine ⟨hih.1.trans hsum2, hih.2.1, fun hfuel hlt => ?_⟩
          refine hih.2.2 ?_ hlt
          simp only [List.length_cons, List.length_append, List.length_nil]
          omega
    · rename_i hlen
      refine ⟨rfl, hne, fun hfuel hlt => ?_⟩
      omega

/-- C7 counterexample: with target count 0 the quantizer still returns one
color (the loop never runs and the single initial bucket is averaged), so
"at most `n` colors for every target `n`" fails at `n = 0`. -/
theorem medianCutQuantize_zero_counterexample :
    ¬ (medianCutQuantize [⟨1, 2, 3⟩] 0).length ≤ 0 := by decide

/-- C7 (amended): for every non-empty pixel list and every target `n ≥ 1`,
`medianCutQuantize` returns at most `n` colors, and fewer than `n` only when
the pixel list itself has fewer than `n` elements — hence fewer than `n`
distinct colors. -/
theorem medianCutQuantize_card (pixels : List RGB) (n : ℕ)
    (hp : pixels ≠ []) (hn : 1 ≤ n) :
    (medianCutQuantize pixels n).length ≤ n
      ∧ ((medianCutQuantize pixels n).length < n → pixels.dedup.length < n) := by
  unfold medianCutQuantize
  rw [if_neg (by simpa using hp)]
  simp only [List.length_map]
  constructor
  · have h := mcLoop_length_le n n [⟨pixels, pixels.length⟩]
    simp only [List.length_singleton] at h
    omega
  · intro hlt
    have hinv := mcLoop_invariant n n [⟨pixels, pixels.length⟩]
      (by simpa using hp) (by simp)
    have hall := hinv.2.2 (by simp) hlt
    have hsum := hinv.1
    rw [sum_sizes_of_all_one _ hall] at hsum
    have hinit : bucketSizes [⟨pixels, pixels.length⟩] = pixels.length := by
      simp [bucketSizes]
    rw [hinit] at hsum
    have hdedup : pixels.dedup.length ≤ pixels.length :=
      List.Sublist.length_le (List.dedup_sublist pixels)
    omega

theorem medianCutQuantize_card_witness :
    (medianCutQuantize [⟨1, 2, 3⟩] 2).length ≤ 2 :=
  (medianCutQuantize_card [⟨1, 2, 3⟩] 2 (by decide) (by decide)).1

/-! ## C4: the primary-color bucket scoring -/

/-- The bucket score as claim C4 words it: the red/orange penalty is keyed on
the bucket's *average member hue*.  The code instead keys the penalty on the
30° bucket key (`groupScore`).  Stated from the claim's words, to be compared
with the code's scoring. -/
def claimGroupScore (gc : List ColorWithFrequency) : ℚ :=
  let avgHue := gc.foldl (fun sum c => sum + c.hsl.h) 0 / (gc.length : ℚ)
  let totalFrequency := bucketTotalFrequency gc
  let avgSaturation := bucketAvgSaturation gc
  let avgHsl : HSL := ⟨avgHue, avgSaturation, bucketAvgLightness gc⟩
  let uiPenalty : ℚ := if isLikelyUIColor avgHsl then 3/10 else 1
  (totalFrequency * (7/10) + avgSaturation * (3/10)) * uiPenalty

/-- `bestGroupStep` with the claim's scoring. -/
def claimBestGroupStep (best : Option (ℤ × List ColorWithFrequency × ℚ))
    (g : ℤ × List ColorWithFrequency) : Option (ℤ × List ColorWithFrequency × ℚ) :=
  match best with
  | none => some (g.1, g.2, claimGroupScore g.2)
  | some b =>
    if claimGroupScore g.2 > b.2.2 then some (g.1, g.2, claimGroupScore g.2) else some b

/-- `findPrimaryColor` as claim C4 words it: identical to the code except
that buckets are scored by `claimGroupScore` (average-hue penalty). -/
def claimFindPrimaryColor (colors : List ColorWithFrequency) :
    Option ColorWithFrequency :=
  let hueGroups := groupColorsByHue colors
  if hueGroups.isEmpty then
    let candidates := colors.filter fun c =>
      decide (c.hsl.s > 20 ∧ c.hsl.l > 15 ∧ c.hsl.l < 85)
    if candidates.isEmpty then none
    else (List.insertionSort (fun a b => b.frequency ≤ a.frequency) candidates).head?
  else
    match hueGroups.foldl claimBestGroupStep none with
    | none => none
    | some (_, gc, _) =>
      (List.insertionSort (fun a b => colorPickScore b ≤ colorPickScore a) gc).head?

/-- C4 counterexample: on `#e68a19` (hue 33.1, saturation 80.4 — bucket key
30, but average hue outside [0,30] ∪ [330,360]) together with `#40bf40`
(green), the code penalizes the orange bucket (key 30 ∈ [0, 30]) and picks
the green, while the claim's average-hue penalty spares the orange and picks
it: the two selectors disagree. -/
theorem findPrimaryColor_avgHue_counterexample :
    (findPrimaryColor (reduceColors ["#e68a19", "#40bf40"])).map (fun c => c.hex)
        = some "#40bf40"
      ∧ (claimFindPrimaryColor (reduceColors ["#e68a19", "#40bf40"])).map (fun c => c.hex)
        = some "#e68a19" := by decide

theorem bestGroupFold_go (gs : List (ℤ × List ColorWithFrequency)) :
    ∀ (k : ℤ) (gc : List ColorWithFrequency),
      ∃ k2 gc2,
        gs.foldl bestGroupStep (some (k, gc, groupScore k gc))
            = some (k2, gc2, groupScore k2 gc2)
          ∧ ((k2 = k ∧ gc2 = gc) ∨ (k2, gc2) ∈ gs)
          ∧ groupScore k gc ≤ groupScore k2 gc2
          ∧ ∀ p ∈ gs, groupScore p.1 p.2 ≤ groupScore k2 gc2 := by
  induction gs with
  | nil =>
    intro k gc
    exact ⟨k, gc, rfl, Or.inl ⟨rfl, rfl⟩, le_refl _, by simp⟩
  | cons g gs ih =>
    intro k gc
    rw [List.foldl_cons]
    by_cases hgt : groupScore g.1 g.2 > groupScore k gc
    · have hstep : bestGroupStep (some (k, gc, groupScore k gc)) g
          = some (g.1, g.2, groupScore g.1 g.2) := by
        change (if groupScore g.1 g.2 > groupScore k gc
          then some (g.1, g.2, groupScore g.1 g.2) else some (k, gc, groupScore k gc))
          = some (g.1, g.2, groupScore g.1 g.2)
        rw [if_pos hgt]
      rw [hstep]
      obtain ⟨k2, gc2, h1, h2, h3, h4⟩ := ih g.1 g.2
      refine ⟨k2, gc2, h1, ?_, le_trans (le_of_lt hgt) h3, ?_⟩
      · rcases h2 with ⟨hk, hgc⟩ | hmem
        · subst hk; subst hgc
          exact Or.inr (List.mem_cons_self _ _)
        · exact Or.inr (List.mem_cons.mpr (Or.inr hmem))
      · intro p hp
        rcases List.mem_cons.mp hp with h5 | h6
        · subst h5; exact h3
        · exact h4 p h6
    · have hstep : bestGroupStep (some (k, gc, groupScore k gc)) g
          = some (k, gc, groupScore k gc) := by
        change (if groupScore g.1 g.2 > groupScore k gc
          then some (g.1, g.2, groupScore g.1 g.2) else some (k, gc, groupScore k gc))
          = some (k, gc, groupScore k gc)
        rw [if_neg hgt]
      rw [hstep]
      obtain ⟨k2, gc2, h1, h2, h3, h4⟩ := ih k gc
      refine ⟨k2, gc2, h1, ?_, h3, ?_⟩
      · rcases h2 with ⟨hk, hgc⟩ | hmem
        · exact Or.inl ⟨hk, hgc⟩
        · exact Or.inr (List.mem_cons.mpr (Or.inr hmem))
      · intro p hp
        rcases List.mem_cons.mp hp with h5 | h6
        · subst h5
          exact le_trans (le_of_not_lt hgt) h3
        · exact h4 p h6

/-- C4 (amended): when the hue grouping is non-empty and `findPrimaryColor`
returns a color, that color lies in a bucket whose `groupScore` — the claim's
`(totalFrequency × 0.7 + avgSaturation × 0.3) × penalty` formula, with the
`0.3` penalty keyed on the bucket's 30° key hue (not the average member hue)
together with average saturation > 70 — is maximal among all buckets, and
within that bucket the returned color maximizes `frequency × 2 + saturation`. -/
theorem findPrimaryColor_spec (colors : List ColorWithFrequency)
    (c : ColorWithFrequency)
    (hg : groupColorsByHue colors ≠ [])
    (h : findPrimaryColor colors = some c) :
    ∃ k gc, (k, gc) ∈ groupColorsByHue colors ∧ c ∈ gc
      ∧ (∀ k2 gc2, (k2, gc2) ∈ groupColorsByHue colors →
          groupScore k2 gc2 ≤ groupScore k gc)
      ∧ ∀ c2 ∈ gc, colorPickScore c2 ≤ colorPickScore c := by
  unfold findPrimaryColor at h
  simp only [] at h
  have hemp : (groupColorsByHue colors).isEmpty = false := by
    cases hgs : groupColorsByHue colors with
    | nil => exact absurd hgs hg
    | cons g rest => rfl
  rw [hemp] at h
  simp only [Bool.false_eq_true, if_false] at h
  cases hgs : groupColorsByHue colors with
  | nil => exact absurd hgs hg
  | cons g rest =>
    rw [hgs] at h
    have hfold : bestGroupFold (g :: rest)
        = rest.foldl bestGroupStep (some (g.1, g.2, groupScore g.1 g.2)) := rfl
    obtain ⟨k2, gc2, h1, h2, h3, h4⟩ := bestGroupFold_go rest g.1 g.2
    rw [show bestGroupFold (g :: rest)
        = rest.foldl bestGroupStep (some (g.1, g.2, groupScore g.1 g.2)) from rfl, h1] at h
    simp only [] at h
    obtain ⟨hmem, hmax⟩ :=
      head_insertionSort_max
        (fun a b : ColorWithFrequency => colorPickScore b ≤ colorPickScore a)
        colorPickScore (fun a b => Iff.rfl) gc2 c h
    refine ⟨k2, gc2, ?_, hmem, ?_, hmax⟩
    · rcases h2 with ⟨hk, hgc⟩ | hmem2
      · subst hk; subst hgc
        exact List.mem_cons_self _ _
      · exact List.mem_cons.mpr (Or.inr hmem2)
    · intro k3 gc3 hmem3
      rcases List.mem_cons.mp hmem3 with h5 | h6
      · have : k3 = g.1 ∧ gc3 = g.2 := by
          constructor
          · exact congrArg Prod.fst h5
          · exact congrArg Prod.snd h5
        rw [this.1, this.2]
        exact h3
      · exact h4 (k3, gc3) h6

theorem findPrimaryColor_spec_witness :
    ∃ k gc, (k, gc) ∈ groupColorsByHue (reduceColors ["#e68a19", "#40bf40"])
      ∧ (⟨⟨64, 191, 64⟩, ⟨120, 249/5, 50⟩, 1, "#40bf40"⟩ : ColorWithFrequency) ∈ gc
      ∧ (∀ k2 gc2, (k2, gc2) ∈ groupColorsByHue (reduceColors ["#e68a19", "#40bf40"]) →
          groupScore k2 gc2 ≤ groupScore k gc)
      ∧ ∀ c2 ∈ gc, colorPickScore c2
          ≤ colorPickScore (⟨⟨64, 191, 64⟩, ⟨120, 249/5, 50⟩, 1, "#40bf40"⟩ : ColorWithFrequency) :=
  findPrimaryColor_spec (reduceColors ["#e68a19", "#40bf40"])
    ⟨⟨64, 191, 64⟩, ⟨120, 249/5, 50⟩, 1, "#40bf40"⟩ (by decide) (by decide)

/-! ## C8: the HSL round trip.

The development below shows that for every integer RGB with channels in
`[0, 255]`, `hslToRgb (rgbToHsl rgb)` differs from `rgb` by at most one per
channel.  Strategy: `hue2rgb` has the closed form
`p + (q - p) * clamp01min u` where `u` is the once-wrapped offset hue and
`clamp01min u = max 0 (min 1 (min (6u) (4 - 6u)))`; with the *unrounded*
hue/saturation/lightness this reconstructs each channel exactly, and the
one-decimal rounding perturbs the reconstructed channel by less than `3/2`,
so rounding back to an integer moves by at most one. -/

/-- The `t < 0` / `t > 1` wrap at the top of `hue2rgb`. -/
def wrap01 (t : ℚ) : ℚ :=
  let t1 := if t < 0 then t + 1 else t
  if t1 > 1 then t1 - 1 else t1

/-- Closed form of the piecewise ramp inside `hue2rgb`. -/
def clamp01min (u : ℚ) : ℚ := max 0 (min 1 (min (6 * u) (4 - 6 * u)))

theorem wrap01_mem (t : ℚ) (h1 : -(1/2) ≤ t) (h2 : t ≤ 3/2) :
    0 ≤ wrap01 t ∧ wrap01 t ≤ 1 := by
  unfold wrap01
  simp only []
  split_ifs <;> constructor <;> linarith

theorem clamp01min_mem (u : ℚ) : 0 ≤ clamp01min u ∧ clamp01min u ≤ 1 := by
  unfold clamp01min
  constructor
  · exact le_max_left 0 _
  · rw [max_le_iff]
    exact ⟨by norm_num, le_trans (min_le_left _ _) (le_refl 1)⟩

theorem clamp01min_low (u : ℚ) (h0 : 0 ≤ u) (h1 : u ≤ 1/6) :
    clamp01min u = 6 * u := by
  unfold clamp01min
  rw [min_eq_left (show 6 * u ≤ 4 - 6 * u by linarith),
    min_eq_right (show 6 * u ≤ 1 by linarith),
    max_eq_right (show (0 : ℚ) ≤ 6 * u by linarith)]

theorem clamp01min_mid (u : ℚ) (h0 : 1/6 ≤ u) (h1 : u ≤ 1/2) :
    clamp01min u = 1 := by
  unfold clamp01min
  rw [min_eq_left (le_min (show (1 : ℚ) ≤ 6 * u by linarith)
      (show (1 : ℚ) ≤ 4 - 6 * u by linarith)),
    max_eq_right (show (0 : ℚ) ≤ 1 by norm_num)]

theorem clamp01min_high (u : ℚ) (h0 : 1/2 ≤ u) (h1 : u ≤ 2/3) :
    clamp01min u = 4 - 6 * u := by
  unfold clamp01min
  rw [min_eq_right (show 4 - 6 * u ≤ 6 * u by linarith),
    min_eq_right (show 4 - 6 * u ≤ 1 by linarith),
    max_eq_right (show (0 : ℚ) ≤ 4 - 6 * u by linarith)]

theorem clamp01min_top (u : ℚ) (h0 : 2/3 ≤ u) : clamp01min u = 0 := by
  unfold clamp01min
  rw [min_eq_right (show 4 - 6 * u ≤ 6 * u by linarith),
    min_eq_right (show 4 - 6 * u ≤ 1 by linarith),
    max_eq_left (show 4 - 6 * u ≤ 0 by linarith)]

theorem clamp01min_lipschitz (u v : ℚ) :
    |clamp01min u - clamp01min v| ≤ 6 * |u - v| := by
  unfold clamp01min
  have h1 : |min (6 * u) (4 - 6 * u) - min (6 * v) (4 - 6 * v)| ≤ 6 * |u - v| := by
    refine le_trans (abs_min_sub_min_le_max _ _ _ _) ?_
    rw [max_le_iff]
    constructor
    · rw [show 6 * u - 6 * v = 6 * (u - v) by ring, abs_mul]
      rw [abs_of_nonneg (by norm_num : (0:ℚ) ≤ 6)]
    · rw [show 4 - 6 * u - (4 - 6 * v) = 6 * (v - u) by ring, abs_mul,
        abs_of_nonneg (by norm_num : (0:ℚ) ≤ 6), abs_sub_comm]
  have h2 : |min 1 (min (6 * u) (4 - 6 * u)) - min 1 (min (6 * v) (4 - 6 * v))|
      ≤ 6 * |u - v| := by
    refine le_trans (abs_min_sub_min_le_max _ _ _ _) ?_
    rw [max_le_iff]
    refine ⟨?_, h1⟩
    simp only [sub_self, abs_zero]
    positivity
  refine le_trans (abs_max_sub_max_le_max _ _ _ _) ?_
  rw [max_le_iff]
  refine ⟨?_, h2⟩
  simp only [sub_self, abs_zero]
  positivity

theorem hue2rgbBody_eq (p q u : ℚ) (h0 : 0 ≤ u) (_h1 : u ≤ 1) :
    (if u < 1/6 then p + (q - p) * 6 * u
      else if u < 1/2 then q
      else if u < 2/3 then p + (q - p) * (2/3 - u) * 6
      else p) = p + (q - p) * clamp01min u := by
  split_ifs with c1 c2 c3
  · rw [clamp01min_low u h0 (by linarith)]
    ring
  · rw [clamp01min_mid u (by linarith) (by linarith)]
    ring
  · rw [clamp01min_high u (by linarith) (by linarith)]
    ring
  · rw [clamp01min_top u (by linarith)]
    ring

theorem hue2rgb_eq_clamp (p q t : ℚ) (h1 : -(1/2) ≤ t) (h2 : t ≤ 3/2) :
    hue2rgb p q t = p + (q - p) * clamp01min (wrap01 t) := by
  obtain ⟨hw0, hw1⟩ := wrap01_mem t h1 h2
  calc hue2rgb p q t
      = (if wrap01 t < 1/6 then p + (q - p) * 6 * wrap01 t
          else if wrap01 t < 1/2 then q
          else if wrap01 t < 2/3 then p + (q - p) * (2/3 - wrap01 t) * 6
          else p) := rfl
  _ = p + (q - p) * clamp01min (wrap01 t) := hue2rgbBody_eq p q (wrap01 t) hw0 hw1

theorem jsRound_near (x : ℚ) (n : ℤ) (h : |x - (n : ℚ)| < 3/2) :
    |jsRound x - n| ≤ 1 := by
  rw [abs_sub_lt_iff] at h
  unfold jsRound
  have hlow : (n : ℤ) - 1 ≤ ⌊x + 1/2⌋ := by
    rw [Int.le_floor]
    push_cast
    linarith
  have hhigh : ⌊x + 1/2⌋ < n + 2 := by
    rw [Int.floor_lt]
    push_cast
    linarith
  rw [abs_le]
  omega

theorem round01_close (x : ℚ) : |round01 x - x| ≤ 1/20 := by
  unfold round01 jsRound
  have h1 : (⌊x * 10 + 1/2⌋ : ℚ) ≤ x * 10 + 1/2 := Int.floor_le _
  have h2 : x * 10 + 1/2 - 1 < ⌊x * 10 + 1/2⌋ := Int.sub_one_lt_floor _
  rw [abs_le]
  constructor <;> [linarith; linarith]

theorem round01_nonneg (x : ℚ) (h : 0 ≤ x) : 0 ≤ round01 x := by
  unfold round01 jsRound
  have h1 : (0 : ℤ) ≤ ⌊x * 10 + 1/2⌋ := by
    rw [Int.le_floor]
    push_cast
    linarith
  have h2 : (0 : ℚ) ≤ (⌊x * 10 + 1/2⌋ : ℚ) := by exact_mod_cast h1
  linarith

theorem round01_le (x B : ℚ) (hx : x ≤ B) (k : ℤ) (hk : (k : ℚ) = B * 10) :
    round01 x ≤ B := by
  unfold round01 jsRound
  have h1 : ⌊x * 10 + 1/2⌋ < k + 1 := by
    rw [Int.floor_lt]
    push_cast
    linarith
  have h2 : (⌊x * 10 + 1/2⌋ : ℚ) ≤ (k : ℚ) := by
    exact_mod_cast Int.lt_add_one_iff.mp h1
  linarith

theorem wrap01_id (t : ℚ) (h0 : 0 ≤ t) (h1 : t ≤ 1) : wrap01 t = t := by
  unfold wrap01
  simp only []
  split_ifs <;> linarith

theorem wrap01_of_neg (t : ℚ) (h : t < 0) : wrap01 t = t + 1 := by
  unfold wrap01
  simp only []
  split_ifs <;> linarith

theorem wrap01_of_gt (t : ℚ) (h : 1 < t) : wrap01 t = t - 1 := by
  unfold wrap01
  simp only []
  split_ifs <;> linarith

theorem channel_le_rawMax (rgb : RGB) :
    (rgb.r : ℚ) / 255 ≤ rawMax rgb ∧ (rgb.g : ℚ) / 255 ≤ rawMax rgb
      ∧ (rgb.b : ℚ) / 255 ≤ rawMax rgb := by
  unfold rawMax
  exact ⟨le_max_left _ _, le_trans (le_max_left _ _) (le_max_right _ _),
    le_trans (le_max_right _ _) (le_max_right _ _)⟩

theorem rawMin_le_channel (rgb : RGB) :
    rawMin rgb ≤ (rgb.r : ℚ) / 255 ∧ rawMin rgb ≤ (rgb.g : ℚ) / 255
      ∧ rawMin rgb ≤ (rgb.b : ℚ) / 255 := by
  unfold rawMin
  exact ⟨min_le_left _ _, le_trans (min_le_right _ _) (min_le_left _ _),
    le_trans (min_le_right _ _) (min_le_right _ _)⟩

theorem rawMinMax_bounds (rgb : RGB)
    (h1 : 0 ≤ rgb.r) (h2 : rgb.r ≤ 255) (h3 : 0 ≤ rgb.g) (h4 : rgb.g ≤ 255)
    (h5 : 0 ≤ rgb.b) (h6 : rgb.b ≤ 255) :
    0 ≤ rawMin rgb ∧ rawMin rgb ≤ rawMax rgb ∧ rawMax rgb ≤ 1 := by
  have c1 : (0 : ℚ) ≤ (rgb.r : ℚ) / 255 := by
    have : (0 : ℚ) ≤ (rgb.r : ℚ) := by exact_mod_cast h1
    positivity
  have c2 : (0 : ℚ) ≤ (rgb.g : ℚ) / 255 := by
    have : (0 : ℚ) ≤ (rgb.g : ℚ) := by exact_mod_cast h3
    positivity
  have c3 : (0 : ℚ) ≤ (rgb.b : ℚ) / 255 := by
    have : (0 : ℚ) ≤ (rgb.b : ℚ) := by exact_mod_cast h5
    positivity
  have d1 : (rgb.r : ℚ) / 255 ≤ 1 := by
    rw [div_le_one (by norm_num)]
    exact_mod_cast h2
  have d2 : (rgb.g : ℚ) / 255 ≤ 1 := by
    rw [div_le_one (by norm_num)]
    exact_mod_cast h4
  have d3 : (rgb.b : ℚ) / 255 ≤ 1 := by
    rw [div_le_one (by norm_num)]
    exact_mod_cast h6
  refine ⟨?_, ?_, ?_⟩
  · exact le_min c1 (le_min c2 c3)
  · exact le_trans (rawMin_le_channel rgb).1 (channel_le_rawMax rgb).1
  · unfold rawMax
    exact max_le d1 (max_le d2 d3)

theorem rawSat_mem (rgb : RGB)
    (h1 : 0 ≤ rgb.r) (h2 : rgb.r ≤ 255) (h3 : 0 ≤ rgb.g) (h4 : rgb.g ≤ 255)
    (h5 : 0 ≤ rgb.b) (h6 : rgb.b ≤ 255) :
    0 ≤ rawSat rgb ∧ rawSat rgb ≤ 1 := by
  obtain ⟨hb1, hb2, hb3⟩ := rawMinMax_bounds rgb h1 h2 h3 h4 h5 h6
  unfold rawSat
  split_ifs with he hl
  · norm_num
  · have hlt : rawMin rgb < rawMax rgb := lt_of_le_of_ne hb2 (fun h => he h.symm)
    have hden : 0 < 2 - rawMax rgb - rawMin rgb := by linarith
    constructor
    · exact div_nonneg (by linarith) (by linarith)
    · rw [div_le_one hden]
      linarith
  · have hlt : rawMin rgb < rawMax rgb := lt_of_le_of_ne hb2 (fun h => he h.symm)
    have hden : 0 < rawMax rgb + rawMin rgb := by linarith
    constructor
    · exact div_nonneg (by linarith) (by linarith)
    · rw [div_le_one hden]
      linarith

/-- The unrounded `q`/`p` of `hslToRgb`, fed with the unrounded saturation
and lightness, recover the channel extrema exactly:
`l + s·min(l, 1−l) = max` and `l − s·min(l, 1−l) = min`. -/
theorem rawQ_eq_extrema (rgb : RGB)
    (h1 : 0 ≤ rgb.r) (h2 : rgb.r ≤ 255) (h3 : 0 ≤ rgb.g) (h4 : rgb.g ≤ 255)
    (h5 : 0 ≤ rgb.b) (h6 : rgb.b ≤ 255) :
    rawLight rgb + rawSat rgb * min (rawLight rgb) (1 - rawLight rgb) = rawMax rgb
      ∧ rawLight rgb - rawSat rgb * min (rawLight rgb) (1 - rawLight rgb) = rawMin rgb := by
  obtain ⟨hb1, hb2, hb3⟩ := rawMinMax_bounds rgb h1 h2 h3 h4 h5 h6
  have hldef : rawLight rgb = (rawMax rgb + rawMin rgb) / 2 := rfl
  unfold rawSat
  split_ifs with he hl
  · rw [hldef, he]
    constructor <;> ring
  · have hlt : rawMin rgb < rawMax rgb := lt_of_le_of_ne hb2 (fun h => he h.symm)
    have hden : 0 < 2 - rawMax rgb - rawMin rgb := by linarith
    have hmin : min (rawLight rgb) (1 - rawLight rgb) = 1 - rawLight rgb := by
      rw [min_eq_right]
      rw [hldef] at hl ⊢
      linarith
    rw [hmin, hldef]
    have harg : 1 - (rawMax rgb + rawMin rgb) / 2 = (2 - rawMax rgb - rawMin rgb) / 2 := by
      ring
    have key : (rawMax rgb - rawMin rgb) / (2 - rawMax rgb - rawMin rgb)
        * (1 - (rawMax rgb + rawMin rgb) / 2) = (rawMax rgb - rawMin rgb) / 2 := by
      rw [harg, div_mul_div_comm, mul_comm (rawMax rgb - rawMin rgb),
        mul_div_mul_left _ _ (ne_of_gt hden)]
    rw [key]
    constructor <;> ring
  · have hlt : rawMin rgb < rawMax rgb := lt_of_le_of_ne hb2 (fun h => he h.symm)
    have hden : 0 < rawMax rgb + rawMin rgb := by linarith
    have hle : ¬ rawLight rgb > 1/2 := hl
    have hmin : min (rawLight rgb) (1 - rawLight rgb) = rawLight rgb := by
      rw [min_eq_left]
      rw [hldef]
      rw [hldef] at hle
      push_neg at hle
      linarith
    rw [hmin, hldef]
    have key : (rawMax rgb - rawMin rgb) / (rawMax rgb + rawMin rgb)
        * ((rawMax rgb + rawMin rgb) / 2) = (rawMax rgb - rawMin rgb) / 2 := by
      rw [div_mul_div_comm, mul_comm (rawMax rgb - rawMin rgb),
        mul_div_mul_left _ _ (ne_of_gt hden)]
    rw [key]
    constructor <;> ring

theorem rawHue_mem (rgb : RGB)
    (h1 : 0 ≤ rgb.r) (h2 : rgb.r ≤ 255) (h3 : 0 ≤ rgb.g) (h4 : rgb.g ≤ 255)
    (h5 : 0 ≤ rgb.b) (h6 : rgb.b ≤ 255) :
    0 ≤ rawHue rgb ∧ rawHue rgb < 1 := by
  obtain ⟨cr, cg, cb⟩ := channel_le_rawMax rgb
  obtain ⟨mr, mg, mb⟩ := rawMin_le_channel rgb
  obtain ⟨hb1, hb2, hb3⟩ := rawMinMax_bounds rgb h1 h2 h3 h4 h5 h6
  unfold rawHue
  by_cases he : rawMax rgb = rawMin rgb
  · rw [if_pos he]
    norm_num
  · rw [if_neg he]
    have hlt : rawMin rgb < rawMax rgb := lt_of_le_of_ne hb2 (Ne.symm he)
    have hd : 0 < rawMax rgb - rawMin rgb := by linarith
    by_cases hr : rawMax rgb = (rgb.r : ℚ) / 255
    · rw [if_pos hr]
      have hu : ((rgb.g : ℚ) / 255 - (rgb.b : ℚ) / 255) / (rawMax rgb - rawMin rgb) ≤ 1 := by
        rw [div_le_one hd]
        linarith
      have hl : -1 ≤ ((rgb.g : ℚ) / 255 - (rgb.b : ℚ) / 255) / (rawMax rgb - rawMin rgb) := by
        rw [le_div_iff hd]
        linarith
      by_cases hgb : (rgb.g : ℚ) / 255 < (rgb.b : ℚ) / 255
      · rw [if_pos hgb]
        have hneg : ((rgb.g : ℚ) / 255 - (rgb.b : ℚ) / 255) / (rawMax rgb - rawMin rgb) < 0 :=
          div_neg_of_neg_of_pos (by linarith) hd
        constructor <;> linarith
      · rw [if_neg hgb]
        push_neg at hgb
        have hpos : 0 ≤ ((rgb.g : ℚ) / 255 - (rgb.b : ℚ) / 255) / (rawMax rgb - rawMin rgb) :=
          div_nonneg (by linarith) (le_of_lt hd)
        constructor <;> linarith
    · rw [if_neg hr]
      by_cases hg : rawMax rgb = (rgb.g : ℚ) / 255
      · rw [if_pos hg]
        have hu : ((rgb.b : ℚ) / 255 - (rgb.r : ℚ) / 255) / (rawMax rgb - rawMin rgb) ≤ 1 := by
          rw [div_le_one hd]
          linarith
        have hl : -1 ≤ ((rgb.b : ℚ) / 255 - (rgb.r : ℚ) / 255) / (rawMax rgb - rawMin rgb) := by
          rw [le_div_iff hd]
          linarith
        constructor <;> linarith
      · rw [if_neg hg]
        have hu : ((rgb.r : ℚ) / 255 - (rgb.g : ℚ) / 255) / (rawMax rgb - rawMin rgb) ≤ 1 := by
          rw [div_le_one hd]
          linarith
        have hl : -1 ≤ ((rgb.r : ℚ) / 255 - (rgb.g : ℚ) / 255) / (rawMax rgb - rawMin rgb) := by
          rw [le_div_iff hd]
          linarith
        constructor <;> linarith

theorem sub_le_two_rawSat (rgb : RGB)
    (h1 : 0 ≤ rgb.r) (h2 : rgb.r ≤ 255) (h3 : 0 ≤ rgb.g) (h4 : rgb.g ≤ 255)
    (h5 : 0 ≤ rgb.b) (h6 : rgb.b ≤ 255) :
    rawMax rgb - rawMin rgb ≤ 2 * rawSat rgb := by
  obtain ⟨hb1, hb2, hb3⟩ := rawMinMax_bounds rgb h1 h2 h3 h4 h5 h6
  unfold rawSat
  split_ifs with he hl
  · linarith
  · have hlt : rawMin rgb < rawMax rgb := lt_of_le_of_ne hb2 (fun h => he h.symm)
    have hd : 0 < rawMax rgb - rawMin rgb := by linarith
    have hD : 0 < 2 - rawMax rgb - rawMin rgb := by linarith
    have e : 2 * ((rawMax rgb - rawMin rgb) / (2 - rawMax rgb - rawMin rgb))
        = 2 * (rawMax rgb - rawMin rgb) / (2 - rawMax rgb - rawMin rgb) := by
      ring
    rw [e, le_div_iff hD]
    nlinarith [mul_nonneg (le_of_lt hd) (show 0 ≤ rawMax rgb + rawMin rgb by linarith)]
  · have hlt : rawMin rgb < rawMax rgb := lt_of_le_of_ne hb2 (fun h => he h.symm)
    have hd : 0 < rawMax rgb - rawMin rgb := by linarith
    have hD : 0 < rawMax rgb + rawMin rgb := by linarith
    have e : 2 * ((rawMax rgb - rawMin rgb) / (rawMax rgb + rawMin rgb))
        = 2 * (rawMax rgb - rawMin rgb) / (rawMax rgb + rawMin rgb) := by
      ring
    rw [e, le_div_iff hD]
    nlinarith [mul_nonneg (le_of_lt hd) (show 0 ≤ 2 - rawMax rgb - rawMin rgb by linarith)]

theorem channel_near_light (rgb : RGB) :
    |(rgb.r : ℚ) / 255 - rawLight rgb| ≤ (rawMax rgb - rawMin rgb) / 2
      ∧ |(rgb.g : ℚ) / 255 - rawLight rgb| ≤ (rawMax rgb - rawMin rgb) / 2
      ∧ |(rgb.b : ℚ) / 255 - rawLight rgb| ≤ (rawMax rgb - rawMin rgb) / 2 := by
  obtain ⟨cr, cg, cb⟩ := channel_le_rawMax rgb
  obtain ⟨mr, mg, mb⟩ := rawMin_le_channel rgb
  have hldef : rawLight rgb = (rawMax rgb + rawMin rgb) / 2 := rfl
  refine ⟨?_, ?_, ?_⟩ <;> rw [abs_le] <;> constructor <;> linarith

set_option maxHeartbeats 3200000 in
/-- Exact inversion: for a non-gray color, feeding the *unrounded* hue into
the `clamp01min ∘ wrap01` closed form of `hue2rgb`, with `p = min` and
`q = max`, reconstructs each channel fraction exactly. -/
theorem raw_inversion (rgb : RGB)
    (h1 : 0 ≤ rgb.r) (h2 : rgb.r ≤ 255) (h3 : 0 ≤ rgb.g) (h4 : rgb.g ≤ 255)
    (h5 : 0 ≤ rgb.b) (h6 : rgb.b ≤ 255) (hne : rawMax rgb ≠ rawMin rgb) :
    rawMin rgb + (rawMax rgb - rawMin rgb) * clamp01min (wrap01 (rawHue rgb + 1/3))
        = (rgb.r : ℚ) / 255
      ∧ rawMin rgb + (rawMax rgb - rawMin rgb) * clamp01min (wrap01 (rawHue rgb))
        = (rgb.g : ℚ) / 255
      ∧ rawMin rgb + (rawMax rgb - rawMin rgb) * clamp01min (wrap01 (rawHue rgb - 1/3))
        = (rgb.b : ℚ) / 255 := by
  obtain ⟨cr, cg, cb⟩ := channel_le_rawMax rgb
  obtain ⟨mr, mg, mb⟩ := rawMin_le_channel rgb
  obtain ⟨hb1, hb2, hb3⟩ := rawMinMax_bounds rgb h1 h2 h3 h4 h5 h6
  have hlt : rawMin rgb < rawMax rgb := lt_of_le_of_ne hb2 (Ne.symm hne)
  have hd : 0 < rawMax rgb - rawMin rgb := by linarith
  unfold rawHue
  rw [if_neg hne]
  by_cases hr : rawMax rgb = (rgb.r : ℚ) / 255
  · rw [if_pos hr]
    set η := ((rgb.g : ℚ) / 255 - (rgb.b : ℚ) / 255) / (rawMax rgb - rawMin rgb) with hη
    have e2 : (rawMax rgb - rawMin rgb) * η = (rgb.g : ℚ) / 255 - (rgb.b : ℚ) / 255 := by
      rw [mul_comm, hη]
      exact div_mul_cancel₀ _ (ne_of_gt hd)
    by_cases hgb : (rgb.g : ℚ) / 255 < (rgb.b : ℚ) / 255
    · rw [if_pos hgb]
      have hgr : (rgb.g : ℚ) / 255 ≤ (rgb.r : ℚ) / 255 := hr ▸ cg
      have hmn : rawMin rgb = (rgb.g : ℚ) / 255 := by
        unfold rawMin
        rw [min_eq_left (le_of_lt hgb), min_eq_right hgr]
      have hη1 : η < 0 := div_neg_of_neg_of_pos (by linarith) hd
      have hη0 : -1 ≤ η := by
        rw [hη, le_div_iff hd]
        linarith
      refine ⟨?_, ?_, ?_⟩
      · rw [wrap01_of_gt _ (by linarith), clamp01min_mid _ (by linarith) (by linarith)]
        linarith
      · rw [wrap01_id _ (by linarith) (by linarith), clamp01min_top _ (by linarith)]
        linarith
      · rw [wrap01_id _ (by linarith) (by linarith),
          clamp01min_high _ (by linarith) (by linarith)]
        have e3 : 4 - 6 * ((η + 6) / 6 - 1/3) = -η := by ring
        rw [e3]
        linarith [e2]
    · rw [if_neg hgb]
      push_neg at hgb
      have hbr : (rgb.b : ℚ) / 255 ≤ (rgb.r : ℚ) / 255 := hr ▸ cb
      have hmn : rawMin rgb = (rgb.b : ℚ) / 255 := by
        unfold rawMin
        rw [min_eq_right hgb, min_eq_right hbr]
      have hη0 : 0 ≤ η := div_nonneg (by linarith) (le_of_lt hd)
      have hη1 : η ≤ 1 := by
        rw [hη, div_le_one hd]
        linarith
      refine ⟨?_, ?_, ?_⟩
      · rw [wrap01_id _ (by linarith) (by linarith),
          clamp01min_mid _ (by linarith) (by linarith)]
        linarith
      · rw [wrap01_id _ (by linarith) (by linarith),
          clamp01min_low _ (by linarith) (by linarith)]
        have e3 : 6 * ((η + 0) / 6) = η := by ring
        rw [e3]
        linarith [e2]
      · rw [wrap01_of_neg _ (by linarith), clamp01min_top _ (by linarith)]
        linarith
  · rw [if_neg hr]
    by_cases hg : rawMax rgb = (rgb.g : ℚ) / 255
    · rw [if_pos hg]
      set η := ((rgb.b : ℚ) / 255 - (rgb.r : ℚ) / 255) / (rawMax rgb - rawMin rgb) with hη
      have e2 : (rawMax rgb - rawMin rgb) * η = (rgb.b : ℚ) / 255 - (rgb.r : ℚ) / 255 := by
        rw [mul_comm, hη]
        exact div_mul_cancel₀ _ (ne_of_gt hd)
      have hbg : (rgb.b : ℚ) / 255 ≤ (rgb.g : ℚ) / 255 := hg ▸ cb
      have hmn : rawMin rgb = min ((rgb.r : ℚ) / 255) ((rgb.b : ℚ) / 255) := by
        unfold rawMin
        rw [min_eq_right hbg]
      have hη1 : η ≤ 1 := by
        rw [hη, div_le_one hd]
        linarith
      have hη0 : -1 ≤ η := by
        rw [hη, le_div_iff hd]
        linarith
      refine ⟨?_, ?_, ?_⟩
      · by_cases hs : η ≤ 0
        · have hbr : (rgb.b : ℚ) / 255 ≤ (rgb.r : ℚ) / 255 := by
            have h0 : (rawMax rgb - rawMin rgb) * η ≤ 0 :=
              mul_nonpos_iff.mpr (Or.inl ⟨le_of_lt hd, hs⟩)
            linarith [e2]
          have hmn2 : rawMin rgb = (rgb.b : ℚ) / 255 := by
            rw [hmn, min_eq_right hbr]
          rw [wrap01_id _ (by linarith) (by linarith),
            clamp01min_high _ (by linarith) (by linarith)]
          have e3 : 4 - 6 * ((η + 2) / 6 + 1/3) = -η := by ring
          rw [e3]
          linarith [e2, hmn2]
        · push_neg at hs
          have hrb : (rgb.r : ℚ) / 255 ≤ (rgb.b : ℚ) / 255 := by
            have h0 : 0 ≤ (rawMax rgb - rawMin rgb) * η := le_of_lt (mul_pos hd hs)
            linarith [e2]
          have hmn2 : rawMin rgb = (rgb.r : ℚ) / 255 := by
            rw [hmn, min_eq_left hrb]
          rw [wrap01_id _ (by linarith) (by linarith), clamp01min_top _ (by linarith)]
          linarith [hmn2]
      · rw [wrap01_id _ (by linarith) (by linarith),
          clamp01min_mid _ (by linarith) (by linarith)]
        linarith
      · by_cases hs : η < 0
        · have hbr : (rgb.b : ℚ) / 255 ≤ (rgb.r : ℚ) / 255 := by
            have h0 : (rawMax rgb - rawMin rgb) * η ≤ 0 :=
              mul_nonpos_iff.mpr (Or.inl ⟨le_of_lt hd, le_of_lt hs⟩)
            linarith [e2]
          have hmn2 : rawMin rgb = (rgb.b : ℚ) / 255 := by
            rw [hmn, min_eq_right hbr]
          rw [wrap01_of_neg _ (by linarith), clamp01min_top _ (by linarith)]
          linarith [hmn2]
        · push_neg at hs
          have hrb : (rgb.r : ℚ) / 255 ≤ (rgb.b : ℚ) / 255 := by
            have h0 : 0 ≤ (rawMax rgb - rawMin rgb) * η := mul_nonneg (le_of_lt hd) hs
            linarith [e2]
          have hmn2 : rawMin rgb = (rgb.r : ℚ) / 255 := by
            rw [hmn, min_eq_left hrb]
          rw [wrap01_id _ (by linarith) (by linarith),
            clamp01min_low _ (by linarith) (by linarith)]
          have e3 : 6 * ((η + 2) / 6 - 1/3) = η := by ring
          rw [e3]
          linarith [e2, hmn2]
    · rw [if_neg hg]
      have hbmax : rawMax rgb = (rgb.b : ℚ) / 255 := by
        rcases max_choice ((rgb.r : ℚ) / 255) (max ((rgb.g : ℚ) / 255) ((rgb.b : ℚ) / 255))
          with h | h
        · exact absurd h hr
        · rcases max_choice ((rgb.g : ℚ) / 255) ((rgb.b : ℚ) / 255) with h2 | h2
          · exact absurd (h.trans h2) hg
          · exact h.trans h2
      set η := ((rgb.r : ℚ) / 255 - (rgb.g : ℚ) / 255) / (rawMax rgb - rawMin rgb) with hη
      have e2 : (rawMax rgb - rawMin rgb) * η = (rgb.r : ℚ) / 255 - (rgb.g : ℚ) / 255 := by
        rw [mul_comm, hη]
        exact div_mul_cancel₀ _ (ne_of_gt hd)
      have hgb : (rgb.g : ℚ) / 255 ≤ (rgb.b : ℚ) / 255 := hbmax ▸ cg
      have hmn : rawMin rgb = min ((rgb.r : ℚ) / 255) ((rgb.g : ℚ) / 255) := by
        unfold rawMin
        rw [min_eq_left hgb]
      have hη1 : η ≤ 1 := by
        rw [hη, div_le_one hd]
        linarith
      have hη0 : -1 ≤ η := by
        rw [hη, le_div_iff hd]
        linarith
      refine ⟨?_, ?_, ?_⟩
      · by_cases hs : η ≤ 0
        · have hrg : (rgb.r : ℚ) / 255 ≤ (rgb.g : ℚ) / 255 := by
            have h0 : (rawMax rgb - rawMin rgb) * η ≤ 0 :=
              mul_nonpos_iff.mpr (Or.inl ⟨le_of_lt hd, hs⟩)
            linarith [e2]
          have hmn2 : rawMin rgb = (rgb.r : ℚ) / 255 := by
            rw [hmn, min_eq_left hrg]
          rw [wrap01_id _ (by linarith) (by linarith), clamp01min_top _ (by linarith)]
          linarith [hmn2]
        · push_neg at hs
          have hgr : (rgb.g : ℚ) / 255 ≤ (rgb.r : ℚ) / 255 := by
            have h0 : 0 ≤ (rawMax rgb - rawMin rgb) * η := le_of_lt (mul_pos hd hs)
            linarith [e2]
          have hmn2 : rawMin rgb = (rgb.g : ℚ) / 255 := by
            rw [hmn, min_eq_right hgr]
          rw [wrap01_of_gt _ (by linarith),
            clamp01min_low _ (by linarith) (by linarith)]
          have e3 : 6 * ((η + 4) / 6 + 1/3 - 1) = η := by ring
          rw [e3]
          linarith [e2, hmn2]
      · by_cases hs : η ≤ 0
        · have hrg : (rgb.r : ℚ) / 255 ≤ (rgb.g : ℚ) / 255 := by
            have h0 : (rawMax rgb - rawMin rgb) * η ≤ 0 :=
              mul_nonpos_iff.mpr (Or.inl ⟨le_of_lt hd, hs⟩)
            linarith [e2]
          have hmn2 : rawMin rgb = (rgb.r : ℚ) / 255 := by
            rw [hmn, min_eq_left hrg]
          rw [wrap01_id _ (by linarith) (by linarith),
            clamp01min_high _ (by linarith) (by linarith)]
          have e3 : 4 - 6 * ((η + 4) / 6) = -η := by ring
          rw [e3]
          linarith [e2, hmn2]
        · push_neg at hs
          have hgr : (rgb.g : ℚ) / 255 ≤ (rgb.r : ℚ) / 255 := by
            have h0 : 0 ≤ (rawMax rgb - rawMin rgb) * η := le_of_lt (mul_pos hd hs)
            linarith [e2]
          have hmn2 : rawMin rgb = (rgb.g : ℚ) / 255 := by
            rw [hmn, min_eq_right hgr]
          rw [wrap01_id _ (by linarith) (by linarith), clamp01min_top _ (by linarith)]
          linarith [hmn2]
      · rw [wrap01_id _ (by linarith) (by linarith),
          clamp01min_mid _ (by linarith) (by linarith)]
        linarith [hbmax]

theorem abs_sub_le_abs_add_abs (a b : ℚ) : |a - b| ≤ |a| + |b| := by
  rw [sub_eq_add_neg]
  refine le_trans (abs_add _ _) ?_
  rw [abs_neg]

theorem min_light_le_half (l : ℚ) : min l (1 - l) ≤ 1/2 := by
  rcases le_total l (1/2) with h | h
  · exact le_trans (min_le_left _ _) h
  · exact le_trans (min_le_right _ _) (by linarith)

theorem min_light_close (l l' : ℚ) :
    |min l' (1 - l') - min l (1 - l)| ≤ |l' - l| := by
  refine le_trans (abs_min_sub_min_le_max _ _ _ _) ?_
  rw [max_le_iff]
  refine ⟨le_refl _, ?_⟩
  rw [show 1 - l' - (1 - l) = -(l' - l) from by ring, abs_neg]

/-- Perturbing saturation and lightness by at most 1/2000 each moves both
`q = l + s·min(l,1−l)` and `p = l − s·min(l,1−l)` by at most 3/2000. -/
theorem qp_perturb (s l s' l' : ℚ)
    (hs0 : 0 ≤ s') (hs1 : s' ≤ 1) (hl0 : 0 ≤ l) (hl1 : l ≤ 1)
    (hds : |s' - s| ≤ 1/2000) (hdl : |l' - l| ≤ 1/2000) :
    |(l' + s' * min l' (1 - l')) - (l + s * min l (1 - l))| ≤ 3/2000
      ∧ |(l' - s' * min l' (1 - l')) - (l - s * min l (1 - l))| ≤ 3/2000 := by
  have hm0 : 0 ≤ min l (1 - l) ∨ min l (1 - l) ≤ 0 := le_or_lt 0 _ |>.imp id le_of_lt
  have hmabs : |min l (1 - l)| ≤ 1/2 := by
    rw [abs_le]
    refine ⟨?_, min_light_le_half l⟩
    rcases le_total l (1 - l) with h | h
    · rw [min_eq_left h]
      linarith
    · rw [min_eq_right h]
      linarith
  have hb1 : |s' * (min l' (1 - l') - min l (1 - l))| ≤ 1/2000 := by
    rw [abs_mul]
    have hsa : |s'| ≤ 1 := abs_le.mpr ⟨by linarith, hs1⟩
    calc |s'| * |min l' (1 - l') - min l (1 - l)|
        ≤ 1 * (1/2000) :=
          mul_le_mul hsa (le_trans (min_light_close l l') hdl) (abs_nonneg _) (by norm_num)
      _ = 1/2000 := by norm_num
  have hb2 : |(s' - s) * min l (1 - l)| ≤ 1/4000 := by
    rw [abs_mul]
    calc |s' - s| * |min l (1 - l)|
        ≤ (1/2000) * (1/2) := mul_le_mul hds hmabs (abs_nonneg _) (by norm_num)
      _ = 1/4000 := by norm_num
  constructor
  · rw [show (l' + s' * min l' (1 - l')) - (l + s * min l (1 - l))
        = (l' - l) + (s' * (min l' (1 - l') - min l (1 - l)) + (s' - s) * min l (1 - l))
      from by ring]
    refine le_trans (abs_add _ _) ?_
    have h3 := abs_add (s' * (min l' (1 - l') - min l (1 - l))) ((s' - s) * min l (1 - l))
    linarith
  · rw [show (l' - s' * min l' (1 - l')) - (l - s * min l (1 - l))
        = (l' - l) - (s' * (min l' (1 - l') - min l (1 - l)) + (s' - s) * min l (1 - l))
      from by ring]
    refine le_trans (abs_sub_le_abs_add_abs _ _) ?_
    have h3 := abs_add (s' * (min l' (1 - l') - min l (1 - l))) ((s' - s) * min l (1 - l))
    linarith

/-- Perturbing the affine reconstruction `p + (q − p)·u` by at most 3/2000 on
`p`, `q` and 1/1200 on `u` moves it by at most 23/6000. -/
theorem affine_perturb (p q p' q' u u' : ℚ)
    (hu0 : 0 ≤ u') (hu1 : u' ≤ 1)
    (hqp0 : 0 ≤ q - p) (hqp1 : q - p ≤ 1)
    (hdu : |u' - u| ≤ 1/1200) (hdp : |p' - p| ≤ 3/2000) (hdq : |q' - q| ≤ 3/2000) :
    |(p' + (q' - p') * u') - (p + (q - p) * u)| ≤ 23/6000 := by
  have b1 : |(p' - p) * (1 - u')| ≤ 3/2000 := by
    rw [abs_mul]
    have h1u : |1 - u'| ≤ 1 := abs_le.mpr ⟨by linarith, by linarith⟩
    calc |p' - p| * |1 - u'|
        ≤ (3/2000) * 1 := mul_le_mul hdp h1u (abs_nonneg _) (by norm_num)
      _ = 3/2000 := by norm_num
  have b2 : |(q' - q) * u'| ≤ 3/2000 := by
    rw [abs_mul]
    have hua : |u'| ≤ 1 := abs_le.mpr ⟨by linarith, hu1⟩
    calc |q' - q| * |u'|
        ≤ (3/2000) * 1 := mul_le_mul hdq hua (abs_nonneg _) (by norm_num)
      _ = 3/2000 := by norm_num
  have b3 : |(q - p) * (u' - u)| ≤ 1/1200 := by
    rw [abs_mul]
    have hqa : |q - p| ≤ 1 := abs_le.mpr ⟨by linarith, hqp1⟩
    calc |q - p| * |u' - u|
        ≤ 1 * (1/1200) := mul_le_mul hqa hdu (abs_nonneg _) (by norm_num)
      _ = 1/1200 := by norm_num
  rw [show (p' + (q' - p') * u') - (p + (q - p) * u)
      = (p' - p) * (1 - u') + ((q' - q) * u' + (q - p) * (u' - u)) from by ring]
  refine le_trans (abs_add _ _) ?_
  refine le_trans (add_le_add_left (abs_add _ _) _) ?_
  linarith

/-- The composed ramp `clamp01min ∘ wrap01` is 6-Lipschitz on arguments at
distance at most 1/7200 within `[-1/2, 3/2]` (the wrap discontinuity is
harmless because the ramp vanishes near both edges of the period). -/
theorem clampwrap_close (t t' : ℚ) (hd : |t' - t| ≤ 1/7200) :
    |clamp01min (wrap01 t') - clamp01min (wrap01 t)| ≤ 6 * |t' - t| := by
  obtain ⟨hd1, hd2⟩ := abs_le.mp hd
  by_cases ha : t < 0
  · by_cases hb : t' < 0
    · rw [wrap01_of_neg t ha, wrap01_of_neg t' hb]
      have h := clamp01min_lipschitz (t' + 1) (t + 1)
      rw [show t' + 1 - (t + 1) = t' - t from by ring] at h
      exact h
    · push_neg at hb
      have ht'le : t' ≤ 1 := by linarith
      rw [wrap01_of_neg t ha, wrap01_id t' hb ht'le]
      rw [clamp01min_top (t + 1) (by linarith), clamp01min_low t' hb (by linarith)]
      rw [sub_zero, abs_of_nonneg (show (0:ℚ) ≤ 6 * t' by linarith)]
      rw [abs_of_nonneg (show (0:ℚ) ≤ t' - t by linarith)]
      linarith
  · push_neg at ha
    by_cases hb : t' < 0
    · have htle : t ≤ 1 := by linarith
      rw [wrap01_of_neg t' hb, wrap01_id t ha htle]
      rw [clamp01min_top (t' + 1) (by linarith), clamp01min_low t ha (by linarith)]
      rw [zero_sub, abs_neg, abs_of_nonneg (show (0:ℚ) ≤ 6 * t by linarith)]
      rw [abs_of_nonpos (show t' - t ≤ 0 by linarith)]
      linarith
    · push_neg at hb
      by_cases hc : 1 < t
      · by_cases hc' : 1 < t'
        · rw [wrap01_of_gt t hc, wrap01_of_gt t' hc']
          have h := clamp01min_lipschitz (t' - 1) (t - 1)
          rw [show t' - 1 - (t - 1) = t' - t from by ring] at h
          exact h
        · push_neg at hc'
          rw [wrap01_of_gt t hc, wrap01_id t' hb hc']
          rw [clamp01min_top t' (by linarith),
            clamp01min_low (t - 1) (by linarith) (by linarith)]
          rw [zero_sub, abs_neg, abs_of_nonneg (show (0:ℚ) ≤ 6 * (t - 1) by linarith)]
          rw [abs_of_nonpos (show t' - t ≤ 0 by linarith)]
          linarith
      · push_neg at hc
        by_cases hc' : 1 < t'
        · rw [wrap01_of_gt t' hc', wrap01_id t ha hc]
          rw [clamp01min_top t (by linarith),
            clamp01min_low (t' - 1) (by linarith) (by linarith)]
          rw [sub_zero, abs_of_nonneg (show (0:ℚ) ≤ 6 * (t' - 1) by linarith)]
          rw [abs_of_nonneg (show (0:ℚ) ≤ t' - t by linarith)]
          linarith
        · push_neg at hc'
          rw [wrap01_id t ha hc, wrap01_id t' hb hc']
          exact clamp01min_lipschitz t' t

theorem q_closed (s l : ℚ) :
    (if l < 1/2 then l * (1 + s) else l + s - l * s) = l + s * min l (1 - l) := by
  split_ifs with h
  · rw [min_eq_left (show l ≤ 1 - l by linarith)]
    ring
  · push_neg at h
    rw [min_eq_right (show 1 - l ≤ l by linarith)]
    ring

theorem hslToRgb_gray (hsl : HSL) (h : hsl.s / 100 = 0) :
    hslToRgb hsl = ⟨jsRound (hsl.l / 100 * 255), jsRound (hsl.l / 100 * 255),
      jsRound (hsl.l / 100 * 255)⟩ := by
  unfold hslToRgb
  simp only []
  rw [if_pos h]

theorem hslToRgb_chroma (hsl : HSL) (h : ¬ hsl.s / 100 = 0) :
    hslToRgb hsl =
      ⟨jsRound (hue2rgb
          (hsl.l / 100 - hsl.s / 100 * min (hsl.l / 100) (1 - hsl.l / 100))
          (hsl.l / 100 + hsl.s / 100 * min (hsl.l / 100) (1 - hsl.l / 100))
          (hsl.h / 360 + 1/3) * 255),
       jsRound (hue2rgb
          (hsl.l / 100 - hsl.s / 100 * min (hsl.l / 100) (1 - hsl.l / 100))
          (hsl.l / 100 + hsl.s / 100 * min (hsl.l / 100) (1 - hsl.l / 100))
          (hsl.h / 360) * 255),
       jsRound (hue2rgb
          (hsl.l / 100 - hsl.s / 100 * min (hsl.l / 100) (1 - hsl.l / 100))
          (hsl.l / 100 + hsl.s / 100 * min (hsl.l / 100) (1 - hsl.l / 100))
          (hsl.h / 360 - 1/3) * 255)⟩ := by
  unfold hslToRgb
  simp only []
  rw [if_neg h, q_closed,
    show 2 * (hsl.l / 100)
        - (hsl.l / 100 + hsl.s / 100 * min (hsl.l / 100) (1 - hsl.l / 100))
      = hsl.l / 100 - hsl.s / 100 * min (hsl.l / 100) (1 - hsl.l / 100) from by ring]

theorem hsl_h_close (rgb : RGB) :
    |(rgbToHsl rgb).h / 360 - rawHue rgb| ≤ 1/7200 := by
  rw [show (rgbToHsl rgb).h = round01 (rawHue rgb * 360) from rfl,
    show round01 (rawHue rgb * 360) / 360 - rawHue rgb
      = (round01 (rawHue rgb * 360) - rawHue rgb * 360) / 360 from by ring,
    abs_div, show |(360 : ℚ)| = 360 from by norm_num,
    div_le_iff (show (0:ℚ) < 360 by norm_num)]
  linarith [round01_close (rawHue rgb * 360)]

theorem hsl_s_close (rgb : RGB) :
    |(rgbToHsl rgb).s / 100 - rawSat rgb| ≤ 1/2000 := by
  rw [show (rgbToHsl rgb).s = round01 (rawSat rgb * 100) from rfl,
    show round01 (rawSat rgb * 100) / 100 - rawSat rgb
      = (round01 (rawSat rgb * 100) - rawSat rgb * 100) / 100 from by ring,
    abs_div, show |(100 : ℚ)| = 100 from by norm_num,
    div_le_iff (show (0:ℚ) < 100 by norm_num)]
  linarith [round01_close (rawSat rgb * 100)]

theorem hsl_l_close (rgb : RGB) :
    |(rgbToHsl rgb).l / 100 - rawLight rgb| ≤ 1/2000 := by
  rw [show (rgbToHsl rgb).l = round01 (rawLight rgb * 100) from rfl,
    show round01 (rawLight rgb * 100) / 100 - rawLight rgb
      = (round01 (rawLight rgb * 100) - rawLight rgb * 100) / 100 from by ring,
    abs_div, show |(100 : ℚ)| = 100 from by norm_num,
    div_le_iff (show (0:ℚ) < 100 by norm_num)]
  linarith [round01_close (rawLight rgb * 100)]

theorem hsl_s_mem (rgb : RGB)
    (h1 : 0 ≤ rgb.r) (h2 : rgb.r ≤ 255) (h3 : 0 ≤ rgb.g) (h4 : rgb.g ≤ 255)
    (h5 : 0 ≤ rgb.b) (h6 : rgb.b ≤ 255) :
    0 ≤ (rgbToHsl rgb).s / 100 ∧ (rgbToHsl rgb).s / 100 ≤ 1 := by
  obtain ⟨hS0, hS1⟩ := rawSat_mem rgb h1 h2 h3 h4 h5 h6
  rw [show (rgbToHsl rgb).s = round01 (rawSat rgb * 100) from rfl]
  constructor
  · exact div_nonneg (round01_nonneg _ (mul_nonneg hS0 (by norm_num))) (by norm_num)
  · rw [div_le_one (show (0:ℚ) < 100 by norm_num)]
    exact round01_le _ 100 (by linarith) 1000 (by norm_num)

theorem hsl_h_mem (rgb : RGB)
    (h1 : 0 ≤ rgb.r) (h2 : rgb.r ≤ 255) (h3 : 0 ≤ rgb.g) (h4 : rgb.g ≤ 255)
    (h5 : 0 ≤ rgb.b) (h6 : rgb.b ≤ 255) :
    0 ≤ (rgbToHsl rgb).h / 360 ∧ (rgbToHsl rgb).h / 360 ≤ 1 := by
  obtain ⟨hH0, hH1⟩ := rawHue_mem rgb h1 h2 h3 h4 h5 h6
  rw [show (rgbToHsl rgb).h = round01 (rawHue rgb * 360) from rfl]
  constructor
  · exact div_nonneg (round01_nonneg _ (mul_nonneg hH0 (by norm_num))) (by norm_num)
  · rw [div_le_one (show (0:ℚ) < 360 by norm_num)]
    exact round01_le _ 360 (by nlinarith) 3600 (by norm_num)

set_option maxHeartbeats 1600000 in
/-- **C8**: for every RGB value with each channel an integer in `[0, 255]`,
`hslToRgb (rgbToHsl rgb)` yields an RGB whose channels each differ from the
original by at most 1 — the only error coming from the final integer rounding
and the 0.1-precision rounding of the three HSL components. -/
theorem rgbToHsl_hslToRgb_roundtrip (rgb : RGB)
    (h1 : 0 ≤ rgb.r) (h2 : rgb.r ≤ 255) (h3 : 0 ≤ rgb.g) (h4 : rgb.g ≤ 255)
    (h5 : 0 ≤ rgb.b) (h6 : rgb.b ≤ 255) :
    |(hslToRgb (rgbToHsl rgb)).r - rgb.r| ≤ 1
      ∧ |(hslToRgb (rgbToHsl rgb)).g - rgb.g| ≤ 1
      ∧ |(hslToRgb (rgbToHsl rgb)).b - rgb.b| ≤ 1 := by
  obtain ⟨hbm1, hbm2, hbm3⟩ := rawMinMax_bounds rgb h1 h2 h3 h4 h5 h6
  have hL0 : 0 ≤ rawLight rgb := by
    unfold rawLight
    linarith
  have hL1 : rawLight rgb ≤ 1 := by
    unfold rawLight
    linarith
  have hdl := hsl_l_close rgb
  have hds := hsl_s_close rgb
  have hdh := hsl_h_close rgb
  by_cases hs0 : (rgbToHsl rgb).s / 100 = 0
  · rw [hslToRgb_gray _ hs0]
    have hS0 : 0 ≤ rawSat rgb := (rawSat_mem rgb h1 h2 h3 h4 h5 h6).1
    have hSsmall : rawSat rgb ≤ 1/2000 := by
      rw [hs0, zero_sub, abs_neg, abs_of_nonneg hS0] at hds
      exact hds
    have hdd : rawMax rgb - rawMin rgb ≤ 1/1000 := by
      have h2S := sub_le_two_rawSat rgb h1 h2 h3 h4 h5 h6
      linarith
    obtain ⟨chr, chg, chb⟩ := channel_near_light rgb
    refine ⟨jsRound_near _ _ ?_, jsRound_near _ _ ?_, jsRound_near _ _ ?_⟩
    · rw [show (rgbToHsl rgb).l / 100 * 255 - ((rgb.r : ℚ))
          = 255 * (((rgbToHsl rgb).l / 100 - rawLight rgb)
            - ((rgb.r : ℚ) / 255 - rawLight rgb)) from by ring,
        abs_mul, abs_of_nonneg (show (0:ℚ) ≤ 255 by norm_num)]
      have hone := abs_sub_le_abs_add_abs ((rgbToHsl rgb).l / 100 - rawLight rgb)
        ((rgb.r : ℚ) / 255 - rawLight rgb)
      linarith
    · rw [show (rgbToHsl rgb).l / 100 * 255 - ((rgb.g : ℚ))
          = 255 * (((rgbToHsl rgb).l / 100 - rawLight rgb)
            - ((rgb.g : ℚ) / 255 - rawLight rgb)) from by ring,
        abs_mul, abs_of_nonneg (show (0:ℚ) ≤ 255 by norm_num)]
      have hone := abs_sub_le_abs_add_abs ((rgbToHsl rgb).l / 100 - rawLight rgb)
        ((rgb.g : ℚ) / 255 - rawLight rgb)
      linarith
    · rw [show (rgbToHsl rgb).l / 100 * 255 - ((rgb.b : ℚ))
          = 255 * (((rgbToHsl rgb).l / 100 - rawLight rgb)
            - ((rgb.b : ℚ) / 255 - rawLight rgb)) from by ring,
        abs_mul, abs_of_nonneg (show (0:ℚ) ≤ 255 by norm_num)]
      have hone := abs_sub_le_abs_add_abs ((rgbToHsl rgb).l / 100 - rawLight rgb)
        ((rgb.b : ℚ) / 255 - rawLight rgb)
      linarith
  · obtain ⟨hs'0, hs'1⟩ := hsl_s_mem rgb h1 h2 h3 h4 h5 h6
    obtain ⟨hh'0, hh'1⟩ := hsl_h_mem rgb h1 h2 h3 h4 h5 h6
    rw [hslToRgb_chroma _ hs0]
    set l' := (rgbToHsl rgb).l / 100 with hlq
    set s' := (rgbToHsl rgb).s / 100 with hsq
    set h' := (rgbToHsl rgb).h / 360 with hhq
    have hne : rawMax rgb ≠ rawMin rgb := by
      intro he
      apply hs0
      rw [hsq, show (rgbToHsl rgb).s = round01 (rawSat rgb * 100) from rfl,
        show rawSat rgb = 0 from by unfold rawSat; rw [if_pos he]]
      decide
    obtain ⟨invr, invg, invb⟩ := raw_inversion rgb h1 h2 h3 h4 h5 h6 hne
    obtain ⟨eQ, eP⟩ := rawQ_eq_extrema rgb h1 h2 h3 h4 h5 h6
    obtain ⟨hq', hp'⟩ := qp_perturb (rawSat rgb) (rawLight rgb) s' l' hs'0 hs'1 hL0 hL1 hds hdl
    rw [eQ] at hq'
    rw [eP] at hp'
    refine ⟨jsRound_near _ _ ?_, jsRound_near _ _ ?_, jsRound_near _ _ ?_⟩
    · have hdu : |clamp01min (wrap01 (h' + 1/3))
          - clamp01min (wrap01 (rawHue rgb + 1/3))| ≤ 1/1200 := by
        have hcw := clampwrap_close (rawHue rgb + 1/3) (h' + 1/3)
          (by rw [show h' + 1/3 - (rawHue rgb + 1/3) = h' - rawHue rgb from by ring]
              exact hdh)
        rw [show h' + 1/3 - (rawHue rgb + 1/3) = h' - rawHue rgb from by ring] at hcw
        refine le_trans hcw ?_
        linarith [abs_nonneg (h' - rawHue rgb)]
      have haff := affine_perturb (rawMin rgb) (rawMax rgb)
        (l' - s' * min l' (1 - l')) (l' + s' * min l' (1 - l'))
        (clamp01min (wrap01 (rawHue rgb + 1/3))) (clamp01min (wrap01 (h' + 1/3)))
        (clamp01min_mem _).1 (clamp01min_mem _).2 (by linarith) (by linarith)
        hdu hp' hq'
      rw [invr] at haff
      have hrw := hue2rgb_eq_clamp (l' - s' * min l' (1 - l')) (l' + s' * min l' (1 - l'))
        (h' + 1/3) (by linarith) (by linarith)
      rw [show hue2rgb (l' - s' * min l' (1 - l')) (l' + s' * min l' (1 - l'))
            (h' + 1/3) * 255 - ((rgb.r : ℚ))
          = 255 * ((l' - s' * min l' (1 - l'))
              + ((l' + s' * min l' (1 - l')) - (l' - s' * min l' (1 - l')))
                * clamp01min (wrap01 (h' + 1/3)) - (rgb.r : ℚ) / 255) from by
            rw [hrw]; ring,
        abs_mul, abs_of_nonneg (show (0:ℚ) ≤ 255 by norm_num)]
      linarith [haff]
    · have hdu : |clamp01min (wrap01 h')
          - clamp01min (wrap01 (rawHue rgb))| ≤ 1/1200 := by
        have hcw := clampwrap_close (rawHue rgb) h' hdh
        refine le_trans hcw ?_
        linarith [abs_nonneg (h' - rawHue rgb)]
      have haff := affine_perturb (rawMin rgb) (rawMax rgb)
        (l' - s' * min l' (1 - l')) (l' + s' * min l' (1 - l'))
        (clamp01min (wrap01 (rawHue rgb))) (clamp01min (wrap01 h'))
        (clamp01min_mem _).1 (clamp01min_mem _).2 (by linarith) (by linarith)
        hdu hp' hq'
      rw [invg] at haff
      have hrw := hue2rgb_eq_clamp (l' - s' * min l' (1 - l')) (l' + s' * min l' (1 - l'))
        h' (by linarith) (by linarith)
      rw [show hue2rgb (l' - s' * min l' (1 - l')) (l' + s' * min l' (1 - l'))
            h' * 255 - ((rgb.g : ℚ))
          = 255 * ((l' - s' * min l' (1 - l'))
              + ((l' + s' * min l' (1 - l')) - (l' - s' * min l' (1 - l')))
                * clamp01min (wrap01 h') - (rgb.g : ℚ) / 255) from by
            rw [hrw]; ring,
        abs_mul, abs_of_nonneg (show (0:ℚ) ≤ 255 by norm_num)]
      linarith [haff]
    · have hdu : |clamp01min (wrap01 (h' - 1/3))
          - clamp01min (wrap01 (rawHue rgb - 1/3))| ≤ 1/1200 := by
        have hcw := clampwrap_close (rawHue rgb - 1/3) (h' - 1/3)
          (by rw [show h' - 1/3 - (rawHue rgb - 1/3) = h' - rawHue rgb from by ring]
              exact hdh)
        rw [show h' - 1/3 - (rawHue rgb - 1/3) = h' - rawHue rgb from by ring] at hcw
        refine le_trans hcw ?_
        linarith [abs_nonneg (h' - rawHue rgb)]
      have haff := affine_perturb (rawMin rgb) (rawMax rgb)
        (l' - s' * min l' (1 - l')) (l' + s' * min l' (1 - l'))
        (clamp01min (wrap01 (rawHue rgb - 1/3))) (clamp01min (wrap01 (h' - 1/3)))
        (clamp01min_mem _).1 (clamp01min_mem _).2 (by linarith) (by linarith)
        hdu hp' hq'
      rw [invb] at haff
      have hrw := hue2rgb_eq_clamp (l' - s' * min l' (1 - l')) (l' + s' * min l' (1 - l'))
        (h' - 1/3) (by linarith) (by linarith)
      rw [show hue2rgb (l' - s' * min l' (1 - l')) (l' + s' * min l' (1 - l'))
            (h' - 1/3) * 255 - ((rgb.b : ℚ))
          = 255 * ((l' - s' * min l' (1 - l'))
              + ((l' + s' * min l' (1 - l')) - (l' - s' * min l' (1 - l')))
                * clamp01min (wrap01 (h' - 1/3)) - (rgb.b : ℚ) / 255) from by
            rw [hrw]; ring,
        abs_mul, abs_of_nonneg (show (0:ℚ) ≤ 255 by norm_num)]
      linarith [haff]

/-- Witness for C8: the round trip moves each channel of RGB(230, 138, 25)
by at most one. -/
theorem rgbToHsl_hslToRgb_roundtrip_witness :
    ((0:ℤ) ≤ 230 ∧ (230:ℤ) ≤ 255 ∧ (0:ℤ) ≤ 138 ∧ (138:ℤ) ≤ 255
        ∧ (0:ℤ) ≤ 25 ∧ (25:ℤ) ≤ 255)
      ∧ (|(hslToRgb (rgbToHsl ⟨230, 138, 25⟩)).r - 230| ≤ 1
          ∧ |(hslToRgb (rgbToHsl ⟨230, 138, 25⟩)).g - 138| ≤ 1
          ∧ |(hslToRgb (rgbToHsl ⟨230, 138, 25⟩)).b - 25| ≤ 1) :=
  ⟨by decide, rgbToHsl_hslToRgb_roundtrip ⟨230, 138, 25⟩ (by decide) (by decide) (by decide)
    (by decide) (by decide) (by decide)⟩

end ThemeExtractor
